import Mathlib

/-!
Verification development for the macOS remote-control chat backend.

The definitions below are shallow embeddings of the TypeScript sources:
  * `MCPClient` (subprocess-backed protocol client): response buffering and
    line framing (`handleProcessOutput`), response correlation
    (`handleResponse` over the `pendingRequests` map), timeouts
    (`waitForResponse`), process exit/error handlers, and the translation of
    a protocol response into a tool result (`callTool`).
  * `LocalMacOSClient` (in-process client, `server.ts`): `callTool` dispatch
    and the per-tool result constructors, with the shell commands it runs
    (`screencapture`, `cliclick`, `osascript`, `open`) abstracted as
    oracles that either succeed or throw an error message.
  * `LLMService.addToConversationContext`: bounded conversation history.
  * `ChatService`: `processMessage`, `executeTools`,
    `continueMultiStepWorkflow`, `isMultiStepRequest`,
    `generateScreenshotMessage`, with the model gateway and the tool client
    abstracted as oracles; external calls are recorded in an event log so
    that control-flow properties (which gateway calls happen) are provable.

JavaScript `number` ids are modelled as `Nat` (the ids minted by `callTool`
are `Date.now() + Math.random()`, always positive); JS truthiness on strings
(`""` is falsy) and on optional fields (`undefined` is falsy) is modelled
explicitly where the source relies on it.
-/

namespace MCPMacOS

/-! ## JSON-RPC response model (shape used by `mcpClient.ts`) -/

/-- One element of a `tools/call` result `content` array:
`{type: "text"|"image", text?, data?}`. -/
structure ContentItem where
  type : String
  text : Option String := none
  data : Option String := none
  deriving DecidableEq, Repr

/-- The `result` field of a JSON-RPC response (`{content?: ContentItem[]}`). -/
structure RespResult where
  content : Option (List ContentItem) := none
  deriving DecidableEq, Repr

/-- The `error` field of a JSON-RPC response (`{message?: string}`). -/
structure RespError where
  message : Option String := none
  deriving DecidableEq, Repr

/-- A parsed JSON-RPC response line: `{id, result?, error?}`.
`id = 0` plays the role of a falsy id (`response.id &&` in JS). -/
structure Resp where
  id : Nat
  result : Option RespResult := none
  error : Option RespError := none
  deriving DecidableEq, Repr

/-- Models `MCPToolResult` from `types/mcp.ts`: `{success, data?, error?, imageData?,
toolName?, content?}`.  `none` models an absent/`undefined` field. -/
structure MCPToolResult where
  success : Bool
  data : Option RespResult := none
  error : Option String := none
  imageData : Option String := none
  toolName : Option String := none
  content : Option String := none
  deriving DecidableEq, Repr

/-- JS string truthiness: `undefined` and `""` are falsy. -/
def jsTruthy : Option String → Bool
  | some s => s ≠ ""
  | none => false

/-- JS `a || dflt` for an optional string `a` (falsy values fall through). -/
def jsOr (a : Option String) (dflt : String) : String :=
  match a with
  | some s => if s = "" then dflt else s
  | none => dflt

/-! ## Line framing (`MCPClient.handleProcessOutput`)

`handleProcessOutput` appends the chunk to `responseBuffer`, splits the
buffer on `'\n'` (`buffer.split('\n')`), keeps the final element (the part
after the last newline, possibly empty) as the new buffer
(`lines.pop() || ''`), and for every remaining complete line whose trimmed
form is nonempty attempts `JSON.parse` and dispatches the parsed response.

`splitNl s` returns `(complete lines of s, trailing part after the last
newline)`, i.e. exactly (`s.split('\n')` minus its last element, last
element). `JSON.parse` with its try/catch is modelled by an arbitrary
partial parse function `parse : List Char → Option Resp` (`none` = the
parse threw and the line is discarded). -/

/-- Split a character stream at `'\n'`: first component is the list of
complete (newline-terminated) lines, second is the trailing fragment. -/
def splitNl : List Char → List (List Char) × List Char
  | [] => ([], [])
  | c :: cs =>
    let r := splitNl cs
    if c = '\n' then ([] :: r.1, r.2)
    else
      match r.1 with
      | [] => ([], c :: r.2)
      | l :: ls => ((c :: l) :: ls, r.2)

/-- Whitespace recognised by `String.prototype.trim` (ASCII part). -/
def isJsSpace (c : Char) : Bool :=
  c = ' ' || c = '\t' || c = '\n' || c = '\r' || c = '\x0b' || c = '\x0c'

/-- JS `line.trim()`. -/
def jsTrim (l : List Char) : List Char :=
  ((l.dropWhile isJsSpace).reverse.dropWhile isJsSpace).reverse

/-- Body of the per-line loop of `handleProcessOutput`: skip lines that are
blank after trimming, otherwise `JSON.parse(line.trim())`, discarding the
line when the parse throws (`none`). -/
def parseDispatchLine (parse : List Char → Option Resp) (line : List Char) :
    Option Resp :=
  if jsTrim line = [] then none else parse (jsTrim line)

/-- Models `handleProcessOutput`: new buffer and, in order, the responses dispatched
for this chunk. -/
def handleProcessOutput (parse : List Char → Option Resp)
    (buffer chunk : List Char) : List Char × List Resp :=
  let r := splitNl (buffer ++ chunk)
  (r.2, r.1.filterMap (parseDispatchLine parse))

/-- Feeding one chunk into the accumulated (buffer, dispatched-so-far) state. -/
def feedChunk (parse : List Char → Option Resp)
    (st : List Char × List Resp) (chunk : List Char) : List Char × List Resp :=
  let r := handleProcessOutput parse st.1 chunk
  (r.1, st.2 ++ r.2)

/-- Feeding a sequence of chunks starting from an empty buffer. -/
def feedChunks (parse : List Char → Option Resp) (chunks : List (List Char)) :
    List Char × List Resp :=
  chunks.foldl (feedChunk parse) ([], [])

theorem splitNl_append (a b : List Char) :
    splitNl (a ++ b) =
      ((splitNl a).1 ++
        (match (splitNl b).1 with
          | [] => []
          | h :: t => ((splitNl a).2 ++ h) :: t),
       if (splitNl b).1 = [] then (splitNl a).2 ++ (splitNl b).2
       else (splitNl b).2) := by
  rcases hb : splitNl b with ⟨lb, tb⟩
  induction a with
  | nil =>
    cases lb with
    | nil => simp [splitNl, hb]
    | cons h t => simp [splitNl, hb]
  | cons c cs ih =>
    rcases ha : splitNl cs with ⟨la, ta⟩
    rw [ha] at ih
    by_cases hc : c = '\n'
    · subst hc
      cases lb <;> simp_all [splitNl]
    · cases la with
      | nil =>
        cases lb with
        | nil => simp_all [splitNl, if_neg hc]
        | cons h t => simp_all [splitNl, if_neg hc]
      | cons l ls =>
        cases lb with
        | nil => simp_all [splitNl, if_neg hc]
        | cons h t => simp_all [splitNl, if_neg hc]

theorem splitNl_no_newline {s : List Char} (h : '\n' ∉ s) :
    splitNl s = ([], s) := by
  induction s with
  | nil => rfl
  | cons c cs ih =>
    simp only [List.mem_cons, not_or] at h
    simp [splitNl, ih h.2, Ne.symm h.1]

theorem newline_not_mem_splitNl_snd (s : List Char) : '\n' ∉ (splitNl s).2 := by
  induction s with
  | nil => simp [splitNl]
  | cons c cs ih =>
    by_cases hc : c = '\n'
    · subst hc; simpa [splitNl] using ih
    · simp only [splitNl, if_neg hc]
      cases ha : (splitNl cs).1 with
      | nil =>
        simp only [List.mem_cons, not_or]
        exact ⟨fun h => hc h.symm, ih⟩
      | cons l ls => simpa using ih

/-- Key decomposition: the lines of `s ++ t` are the lines of `s` followed by
the lines of (trailing fragment of `s`) ++ t, and the trailing fragments
agree. -/
theorem splitNl_append_restart (s t : List Char) :
    (splitNl (s ++ t)).1 = (splitNl s).1 ++ (splitNl ((splitNl s).2 ++ t)).1 ∧
    (splitNl (s ++ t)).2 = (splitNl ((splitNl s).2 ++ t)).2 := by
  have htail := splitNl_no_newline (newline_not_mem_splitNl_snd s)
  have h1 := splitNl_append s t
  have h2 := splitNl_append ((splitNl s).2) t
  rw [htail] at h2
  refine ⟨?_, ?_⟩ <;>
    · rw [h1, h2]
      try cases hb : (splitNl t).1 <;> simp

/-- Invariant form of chunk feeding: starting from any newline-free buffer,
folding over chunks is determined by the concatenation of buffer and chunks. -/
theorem foldl_feedChunk (parse : List Char → Option Resp)
    (chunks : List (List Char)) (buf : List Char) (out : List Resp)
    (hbuf : '\n' ∉ buf) :
    chunks.foldl (feedChunk parse) (buf, out) =
      ((splitNl (buf ++ chunks.flatten)).2,
       out ++ (splitNl (buf ++ chunks.flatten)).1.filterMap
         (parseDispatchLine parse)) := by
  induction chunks generalizing buf out with
  | nil => simp [splitNl_no_newline hbuf]
  | cons c cs ih =>
    have hstep :
        feedChunk parse (buf, out) c =
          ((splitNl (buf ++ c)).2,
           out ++ (splitNl (buf ++ c)).1.filterMap (parseDispatchLine parse)) := rfl
    have hre := splitNl_append_restart (buf ++ c) cs.flatten
    simp only [List.foldl_cons, hstep,
      ih _ _ (newline_not_mem_splitNl_snd (buf ++ c))]
    rw [List.flatten_cons, ← List.append_assoc]
    rw [hre.1, hre.2, List.filterMap_append, List.append_assoc]

/-- C2: the sequence of dispatched responses and the retained buffer depend
only on the concatenation of the fed chunks — any partition of the stream
into chunks (one byte at a time, many lines at once, whole lines) dispatches
the same responses; unparsable lines contribute nothing (`parse = none` on
them), and the trailing fragment after the last newline is retained. -/
theorem feedChunks_eq_of_flatten (parse : List Char → Option Resp)
    (chunks : List (List Char)) :
    feedChunks parse chunks =
      ((splitNl chunks.flatten).2,
       (splitNl chunks.flatten).1.filterMap (parseDispatchLine parse)) := by
  simpa [feedChunks] using
    foldl_feedChunk parse chunks [] [] (by simp)

/-! ## Pending-request map (`MCPClient.pendingRequests`)

`pendingRequests : Map<number, {resolve, reject, timeout}>` is modelled as an
association list from request id to the absolute deadline of its
`setTimeout` timer.  The `resolve`/`reject` continuations are modelled by
emitting `(id, response)` resolution records and `(id, message)` rejection
records: "caller `id`'s promise was resolved with `response`" /
"... rejected with `message`".  `Map.delete` removes the (unique) entry;
`clearTimeout` is implicit in dropping the entry's deadline. -/

/-- Models `Map.get`/`Map.has` on the pending map: first entry with the given id. -/
def lookupKey : List (Nat × Nat) → Nat → Option Nat
  | [], _ => none
  | p :: ps, i => if p.1 = i then some p.2 else lookupKey ps i

/-- Models `pendingRequests.has(id)`. -/
def hasKey (ps : List (Nat × Nat)) (i : Nat) : Bool :=
  (lookupKey ps i).isSome

/-- Models `pendingRequests.delete(id)`: remove the entry with that id. -/
def delKey : List (Nat × Nat) → Nat → List (Nat × Nat)
  | [], _ => []
  | p :: ps, i => if p.1 = i then ps else p :: delKey ps i

/-- Models `MCPClient.handleResponse`: if the response id is truthy and has a
pending request, delete it, clear its timer and resolve the caller with the
whole response object; otherwise do nothing. -/
def handleResponse (ps : List (Nat × Nat)) (r : Resp) :
    List (Nat × Nat) × List (Nat × Resp) :=
  if r.id ≠ 0 ∧ hasKey ps r.id then (delKey ps r.id, [(r.id, r)])
  else (ps, [])

/-- Dispatching a sequence of arrived responses, in arrival order. -/
def dispatchResponses (ps : List (Nat × Nat)) :
    List Resp → List (Nat × Nat) × List (Nat × Resp)
  | [] => (ps, [])
  | r :: rs =>
    let h := handleResponse ps r
    let rest := dispatchResponses h.1 rs
    (rest.1, h.2 ++ rest.2)

theorem lookupKey_delKey_ne (ps : List (Nat × Nat)) {i j : Nat} (h : i ≠ j) :
    lookupKey (delKey ps j) i = lookupKey ps i := by
  induction ps with
  | nil => rfl
  | cons p ps ih =>
    by_cases hj : p.1 = j
    · simp [delKey, lookupKey, hj, (Ne.symm h : ¬j = i)]
    · by_cases hi : p.1 = i <;> simp [delKey, lookupKey, hj, hi, ih, h]

theorem keys_delKey_sublist (ps : List (Nat × Nat)) (j : Nat) :
    ((delKey ps j).map Prod.fst).Sublist (ps.map Prod.fst) := by
  induction ps with
  | nil => simp [delKey]
  | cons p ps ih =>
    by_cases hj : p.1 = j
    · simp only [delKey, if_pos hj, List.map_cons]
      exact (List.sublist_cons_self _ _)
    · simp only [delKey, if_neg hj, List.map_cons]
      exact ih.cons₂ _

theorem lookupKey_eq_none_of_not_mem {ps : List (Nat × Nat)} {i : Nat}
    (h : i ∉ ps.map Prod.fst) : lookupKey ps i = none := by
  induction ps with
  | nil => rfl
  | cons p ps ih =>
    simp only [List.map_cons, List.mem_cons, not_or] at h
    have hp : ¬p.1 = i := fun hp => h.1 hp.symm
    simp [lookupKey, hp, ih h.2]

theorem hasKey_delKey_self {ps : List (Nat × Nat)} {i : Nat}
    (hnd : (ps.map Prod.fst).Nodup) : hasKey (delKey ps i) i = false := by
  induction ps with
  | nil => rfl
  | cons p ps ih =>
    simp only [List.map_cons, List.nodup_cons] at hnd
    by_cases hp : p.1 = i
    · subst hp
      simp [delKey, hasKey, lookupKey_eq_none_of_not_mem hnd.1]
    · simpa [delKey, hasKey, lookupKey, hp] using ih hnd.2

/-- Every resolution record carries a response drawn from the arrived list,
and a caller is only ever resolved with a response bearing its own id. -/
theorem dispatch_mem_out (ps : List (Nat × Nat)) (rs : List Resp)
    {j : Nat} {r' : Resp} (h : (j, r') ∈ (dispatchResponses ps rs).2) :
    r' ∈ rs ∧ r'.id = j := by
  induction rs generalizing ps with
  | nil => simp [dispatchResponses] at h
  | cons r₀ rs ih =>
    simp only [dispatchResponses, List.mem_append] at h
    rcases h with h | h
    · unfold handleResponse at h
      split at h
      · simp only [List.mem_singleton, Prod.mk.injEq] at h
        exact ⟨by simp [h.2], by rw [h.2, h.1]⟩
      · simp at h
    · have := ih _ h
      exact ⟨List.mem_cons_of_mem _ this.1, this.2⟩

theorem dispatch_lookup_preserved (ps : List (Nat × Nat)) (rs : List Resp)
    {i : Nat} (h : ∀ r ∈ rs, r.id ≠ i) :
    lookupKey (dispatchResponses ps rs).1 i = lookupKey ps i := by
  induction rs generalizing ps with
  | nil => rfl
  | cons r₀ rs ih =>
    have hne : r₀.id ≠ i := h r₀ (by simp)
    have hrest : ∀ r ∈ rs, r.id ≠ i := fun r hr => h r (List.mem_cons_of_mem _ hr)
    simp only [dispatchResponses]
    unfold handleResponse
    split
    · rw [ih _ hrest, lookupKey_delKey_ne _ (Ne.symm hne)]
    · exact ih _ hrest

theorem dispatch_keys_sublist (ps : List (Nat × Nat)) (rs : List Resp) :
    (((dispatchResponses ps rs).1).map Prod.fst).Sublist (ps.map Prod.fst) := by
  induction rs generalizing ps with
  | nil => simp [dispatchResponses]
  | cons r₀ rs ih =>
    simp only [dispatchResponses]
    unfold handleResponse
    split
    · exact (ih _).trans (keys_delKey_sublist ps r₀.id)
    · exact ih ps

/-- Existence: a caller whose matching response arrives is resolved with it,
whatever the arrival order around it. -/
theorem dispatch_resolves (ps : List (Nat × Nat)) (rs : List Resp)
    {i : Nat} {r : Resp} (hid0 : i ≠ 0) (hk : hasKey ps i = true)
    (hnodup : (rs.map Resp.id).Nodup) (hr : r ∈ rs) (hri : r.id = i) :
    (i, r) ∈ (dispatchResponses ps rs).2 := by
  induction rs generalizing ps with
  | nil => simp at hr
  | cons r₀ rs ih =>
    simp only [List.map_cons, List.nodup_cons] at hnodup
    rcases List.mem_cons.mp hr with hhead | htail
    · subst hhead
      simp only [dispatchResponses, List.mem_append]
      left
      rw [handleResponse, if_pos ⟨hri ▸ hid0, hri ▸ hk⟩]
      simp [hri]
    · have hne : r₀.id ≠ i := by
        intro hcontra
        exact hnodup.1 (hcontra ▸ hri ▸ (List.mem_map_of_mem Resp.id htail))
      simp only [dispatchResponses, List.mem_append]
      right
      unfold handleResponse
      split
      · have hk' : hasKey (delKey ps r₀.id) i = true := by
          simpa [hasKey, lookupKey_delKey_ne _ (Ne.symm hne)] using hk
        exact ih _ hk' hnodup.2 htail
      · exact ih _ hk hnodup.2 htail

/-- C1: with pairwise-distinct response ids, whatever the arrival order of
the response lines, the caller whose pending request has id `i` is resolved
with exactly the arrived response whose id is `i` — the resolution record
`(i, r)` is produced, and any resolution delivered to caller `i` is that
very response.  (`callTool` request ids, `Date.now() + Math.random()`, are
positive, hence `i ≠ 0`.) -/
theorem c1_correlation_by_id (ps : List (Nat × Nat)) (rs : List Resp)
    (i : Nat) (r : Resp) (hid0 : i ≠ 0) (hk : hasKey ps i = true)
    (hnodup : (rs.map Resp.id).Nodup) (hr : r ∈ rs) (hri : r.id = i) :
    (i, r) ∈ (dispatchResponses ps rs).2 ∧
      ∀ r', (i, r') ∈ (dispatchResponses ps rs).2 → r' = r := by
  refine ⟨dispatch_resolves ps rs hid0 hk hnodup hr hri, fun r' hr' => ?_⟩
  have hmem := dispatch_mem_out ps rs hr'
  exact List.inj_on_of_nodup_map hnodup hmem.1 hr (hmem.2.trans hri.symm)

/-- Witness for `c1_correlation_by_id`: two concurrent requests (ids 5 and 9),
responses arriving in the opposite order; caller 5 gets response 5 only. -/
theorem c1_correlation_by_id_witness :
    ((5 : Nat) ≠ 0 ∧ hasKey [(5, 45000), (9, 45000)] 5 = true ∧
      (([Resp.mk 9 none none, Resp.mk 5 none none].map Resp.id)).Nodup ∧
      Resp.mk 5 none none ∈ [Resp.mk 9 none none, Resp.mk 5 none none] ∧
      (Resp.mk 5 none none).id = 5) ∧
    (5, Resp.mk 5 none none) ∈
      (dispatchResponses [(5, 45000), (9, 45000)]
        [Resp.mk 9 none none, Resp.mk 5 none none]).2 :=
  ⟨⟨by decide, by decide, by decide, by decide, by decide⟩,
    (c1_correlation_by_id [(5, 45000), (9, 45000)]
      [Resp.mk 9 none none, Resp.mk 5 none none] 5 (Resp.mk 5 none none)
      (by decide) (by decide) (by decide) (by decide) (by decide)).1⟩

/-! ## Timeouts and `callTool` (`MCPClient.waitForResponse`, lines 234-322)

`waitForResponse(requestId)` arms `setTimeout(..., 45000)` and stores
`{resolve, reject, timeout}` in `pendingRequests`.  The timer is modelled by
the stored absolute deadline (registration time + 45000 ms); `timeoutFire`
is the timer callback, which can only run at exactly that deadline while the
entry is still present (resolution clears the timer). -/

/-- The 45-second request deadline (`setTimeout(..., 45000)`). -/
def timeoutMs : Nat := 45000

/-- Registering the pending request at absolute time `now`
(`pendingRequests.set(requestId, {resolve, reject, timeout})`). -/
def registerPending (ps : List (Nat × Nat)) (requestId now : Nat) :
    List (Nat × Nat) :=
  ps ++ [(requestId, now + timeoutMs)]

/-- The `setTimeout` callback: at exactly the armed deadline, delete the
pending request and reject its caller with `'MCP request timeout'`;
`none` = the timer cannot fire (entry gone or wrong instant). -/
def timeoutFire (ps : List (Nat × Nat)) (requestId t : Nat) :
    Option (List (Nat × Nat) × (Nat × String)) :=
  match lookupKey ps requestId with
  | some d =>
    if t = d then some (delKey ps requestId, (requestId, "MCP request timeout"))
    else none
  | none => none

theorem lookupKey_append_single {ps : List (Nat × Nat)} {i d : Nat}
    (h : i ∉ ps.map Prod.fst) :
    lookupKey (ps ++ [(i, d)]) i = some d := by
  induction ps with
  | nil => simp [lookupKey]
  | cons p ps ih =>
    simp only [List.map_cons, List.mem_cons, not_or] at h
    have hp : ¬p.1 = i := fun hp => h.1 hp.symm
    simpa [lookupKey, hp] using ih h.2

/-- Models the `result.content[0].text || result.content[0].data || dflt` chains. -/
def jsOrOr (a b : Option String) (dflt : String) : String :=
  if jsTruthy a then jsOr a dflt else jsOr b dflt

/-- Translation of the awaited outcome into an `MCPToolResult`
(`MCPClient.callTool`, lines 264-310).  `Except.error` is a rejection of the
awaited promise (timeout, process death, ...), handled by the `catch` block;
`Except.ok` is the correlated response.  An `ok` response with a present but
empty `content` array makes `content[0].type` raise a `TypeError`
(`content` is `undefined`), which the same `catch` block turns into a failed
result — its runtime message is modelled verbatim. -/
def mcpCallToolOutcome (name : String) (outcome : Except String Resp) :
    MCPToolResult :=
  match outcome with
  | .error e => { success := false, error := some e, toolName := some name }
  | .ok response =>
    match response.error with
    | some err =>
      { success := false, error := some (jsOr err.message "Unknown MCP error"),
        toolName := some name }
    | none =>
      match response.result with
      | some result =>
        match result.content with
        | some (content :: _) =>
          if content.type = "image" then
            { success := true, data := some result, imageData := content.data,
              toolName := some name }
          else
            { success := true, data := some result,
              content := some (jsOrOr content.text content.data
                "Tool executed successfully"),
              toolName := some name }
        | some [] =>
          { success := false,
            error := some "Cannot read properties of undefined (reading \x27type\x27)",
            toolName := some name }
        | none =>
          { success := true, data := some result,
            content := some "Tool executed successfully", toolName := some name }
      | none =>
        { success := true, data := none,
          content := some "Tool executed successfully", toolName := some name }

/-- C3: a request registered at time `t0` whose matching response never
arrives keeps its pending entry with deadline exactly `t0 + 45000`; the
timer fires at that instant (and no resolution cleared it), removing the
entry and rejecting the caller with `'MCP request timeout'`; `callTool`'s
`catch` turns that rejection into a failed Tool Result carrying the timeout
message instead of propagating the exception. -/
theorem c3_timeout_after_deadline (ps0 : List (Nat × Nat))
    (rid t0 : Nat) (rs : List Resp) (name : String)
    (hkeys : ((registerPending ps0 rid t0).map Prod.fst).Nodup)
    (hnone : ∀ r ∈ rs, r.id ≠ rid) :
    lookupKey (dispatchResponses (registerPending ps0 rid t0) rs).1 rid =
      some (t0 + timeoutMs) ∧
    timeoutFire (dispatchResponses (registerPending ps0 rid t0) rs).1 rid
        (t0 + timeoutMs) =
      some (delKey (dispatchResponses (registerPending ps0 rid t0) rs).1 rid,
        (rid, "MCP request timeout")) ∧
    hasKey
      (delKey (dispatchResponses (registerPending ps0 rid t0) rs).1 rid)
      rid = false ∧
    mcpCallToolOutcome name (Except.error "MCP request timeout") =
      { success := false, error := some "MCP request timeout",
        toolName := some name } := by
  have hfresh : rid ∉ ps0.map Prod.fst := by
    have hnd := hkeys
    simp only [registerPending, List.map_append] at hnd
    intro hmem
    exact (List.nodup_append.mp hnd).2.2 hmem (by simp)
  have hlook : lookupKey (registerPending ps0 rid t0) rid =
      some (t0 + timeoutMs) :=
    lookupKey_append_single hfresh
  have hpre := dispatch_lookup_preserved (registerPending ps0 rid t0) rs hnone
  have h1 : lookupKey (dispatchResponses (registerPending ps0 rid t0) rs).1 rid
      = some (t0 + timeoutMs) := hpre.trans hlook
  refine ⟨h1, ?_, ?_, rfl⟩
  · simp [timeoutFire, h1]
  · exact hasKey_delKey_self
      ((dispatch_keys_sublist (registerPending ps0 rid t0) rs).nodup hkeys)

/-- Witness for `c3_timeout_after_deadline`: one pending request (id 7) sent
at t=1000, an unrelated response (id 8) arriving, the timeout firing at
t=46000. -/
theorem c3_timeout_after_deadline_witness :
    (((registerPending [] 7 1000).map Prod.fst).Nodup ∧
      ∀ r ∈ [Resp.mk 8 none none], r.id ≠ 7) ∧
    lookupKey (dispatchResponses (registerPending [] 7 1000)
      [Resp.mk 8 none none]).1 7 = some (1000 + timeoutMs) :=
  ⟨⟨by decide, by decide⟩,
    (c3_timeout_after_deadline [] 7 1000 [Resp.mk 8 none none] "remote_macos_get_screen"
      (by decide) (by decide)).1⟩

/-! ## Process death and the `callTool` guard (`connect` handlers, lines
32-42; `rejectPendingRequests`, lines 96-102; `callTool`, lines 234-261) -/

/-- Connection flags of `MCPClient`: `connected`, `mcpProcess !== null`,
`mcpProcess.stdin.writable`. -/
structure MCPFlags where
  connected : Bool
  hasProcess : Bool
  stdinWritable : Bool
  deriving DecidableEq, Repr

/-- Models `rejectPendingRequests(error)`: clear every timer, reject every pending
caller with the same error, clear the map. -/
def rejectPendingRequests (ps : List (Nat × Nat)) (err : String) :
    List (Nat × Nat) × List (Nat × String) :=
  ([], ps.map (fun p => (p.1, err)))

/-- The message of the error built in the `'exit'` handler. -/
def exitMessage (code : Int) : String :=
  "MCP process exited with code " ++ toString code

/-- Models `mcpProcess.on('exit')` handler: mark disconnected, reject all pending
requests with the exit error.  Returns (flags, pending map, rejections). -/
def onProcessExit (fl : MCPFlags) (ps : List (Nat × Nat)) (code : Int) :
    MCPFlags × (List (Nat × Nat) × List (Nat × String)) :=
  ({ fl with connected := false }, rejectPendingRequests ps (exitMessage code))

/-- Models `mcpProcess.on('error')` handler: same shape, with the raised error. -/
def onProcessError (fl : MCPFlags) (ps : List (Nat × Nat)) (err : String) :
    MCPFlags × (List (Nat × Nat) × List (Nat × String)) :=
  ({ fl with connected := false }, rejectPendingRequests ps err)

/-- A serialized `tools/call` request line written to the subprocess stdin
(`{jsonrpc: '2.0', id, method: 'tools/call', params: {name, arguments}}`;
the `arguments` payload is opaque to the claims and elided). -/
structure RequestMsg where
  jsonrpc : String
  id : Nat
  method : String
  toolName : String
  deriving DecidableEq, Repr

/-- How the part of `callTool` before awaiting the response ends. -/
inductive SendOutcome where
  /-- Models `throw new Error('MCP client not connected')` — raised before the
  `try` block, so it propagates to the caller. -/
  | notConnected
  /-- An error thrown inside the `try` block (stdin not writable), caught
  by the `catch` and turned into a failed Tool Result. -/
  | failedResult (error : String)
  /-- The request was written and the pending request registered. -/
  | sent (pending : List (Nat × Nat))
  deriving DecidableEq, Repr

/-- Models `callTool` up to `waitForResponse`: the connection guard, the stdin
writability check, the stdin write and the pending-request registration.
First component: the requests actually written to the subprocess. -/
def callToolSend (fl : MCPFlags) (ps : List (Nat × Nat)) (name : String)
    (requestId now : Nat) : List RequestMsg × SendOutcome :=
  if ¬(fl.connected ∧ fl.hasProcess) then ([], .notConnected)
  else if ¬fl.stdinWritable then
    ([], .failedResult "MCP process stdin not writable")
  else
    ([⟨"2.0", requestId, "tools/call", name⟩],
      .sent (registerPending ps requestId now))

/-- C4: a subprocess `exit` (or `error`) event while `N = ps.length`
requests are outstanding rejects all `N` callers with one and the same
error, clears the pending map and drops the connected flag; afterwards any
`callTool` raises `'MCP client not connected'` without writing anything to
the subprocess. -/
theorem c4_process_death_rejects_all (fl : MCPFlags) (ps : List (Nat × Nat))
    (code : Int) (err : String) :
    (onProcessExit fl ps code).2.2 =
        ps.map (fun p => (p.1, exitMessage code)) ∧
    (onProcessExit fl ps code).2.2.length = ps.length ∧
    (onProcessExit fl ps code).2.1 = [] ∧
    (onProcessExit fl ps code).1.connected = false ∧
    (onProcessError fl ps err).2.2 = ps.map (fun p => (p.1, err)) ∧
    (onProcessError fl ps err).2.1 = [] ∧
    (onProcessError fl ps err).1.connected = false ∧
    ∀ name requestId now ps',
      callToolSend (onProcessExit fl ps code).1 ps' name requestId now =
        ([], SendOutcome.notConnected) := by
  refine ⟨rfl, by simp [onProcessExit, rejectPendingRequests], rfl, rfl, rfl,
    rfl, rfl, fun name requestId now ps' => ?_⟩
  simp [callToolSend, onProcessExit]

/-! ## `connect` and the tool catalog (`MCPClient.connect`, lines 13-66;
`MCPClient.loadTools`, lines 104-228) -/

/-- One property of a tool input schema (`type`, `description`, optional
`default`, `enum`, `examples`). -/
structure PropertySpec where
  type : String
  description : String
  dflt : Option Int := none
  enum : Option (List String) := none
  examples : Option (List String) := none
  deriving DecidableEq, Repr

/-- A tool input schema: `{type, properties, required}`. -/
structure InputSchema where
  type : String
  properties : List (String × PropertySpec)
  required : List String
  deriving DecidableEq, Repr

/-- Models `MCPTool` from `types/mcp.ts`. -/
structure MCPTool where
  name : String
  description : String
  inputSchema : InputSchema
  deriving DecidableEq, Repr

/-- The coordinate-scaling properties shared by the mouse tools. -/
def sourceDimProps : List (String × PropertySpec) :=
  [("source_width",
    { type := "integer",
      description := "Source screen width for coordinate scaling",
      dflt := some 1366 }),
   ("source_height",
    { type := "integer",
      description := "Source screen height for coordinate scaling",
      dflt := some 768 })]

/-- Models `MCPClient.loadTools`: the tool catalog is a hardcoded list of 8 tools —
no `tools/list` request is sent and no subprocess output is consulted. -/
def loadTools : List MCPTool :=
  [{ name := "remote_macos_get_screen",
     description := "Take a screenshot of the remote macOS desktop to see what\x27s currently displayed",
     inputSchema := { type := "object", properties := [], required := [] } },
   { name := "remote_macos_mouse_click",
     description := "Click at specified coordinates on the remote macOS screen",
     inputSchema :=
       { type := "object",
         properties :=
           [("x", { type := "integer", description := "X coordinate to click" }),
            ("y", { type := "integer", description := "Y coordinate to click" })]
           ++ sourceDimProps ++
           [("button",
             { type := "integer",
               description := "Mouse button: 1=left, 2=middle, 3=right",
               dflt := some 1 })],
         required := ["x", "y"] } },
   { name := "remote_macos_mouse_double_click",
     description := "Double-click at specified coordinates on the remote macOS screen",
     inputSchema :=
       { type := "object",
         properties :=
           [("x", { type := "integer", description := "X coordinate to double-click" }),
            ("y", { type := "integer", description := "Y coordinate to double-click" })]
           ++ sourceDimProps,
         required := ["x", "y"] } },
   { name := "remote_macos_mouse_move",
     description := "Move the mouse cursor to specified coordinates",
     inputSchema :=
       { type := "object",
         properties :=
           [("x", { type := "integer", description := "X coordinate to move to" }),
            ("y", { type := "integer", description := "Y coordinate to move to" })]
           ++ sourceDimProps,
         required := ["x", "y"] } },
   { name := "remote_macos_mouse_scroll",
     description := "Scroll at specified coordinates in a given direction",
     inputSchema :=
       { type := "object",
         properties :=
           [("x", { type := "integer", description := "X coordinate to scroll at" }),
            ("y", { type := "integer", description := "Y coordinate to scroll at" }),
            ("direction",
             { type := "string",
               description := "Scroll direction: up, down, left, right",
               enum := some ["up", "down", "left", "right"] }),
            ("clicks",
             { type := "integer", description := "Number of scroll clicks",
               dflt := some 3 })],
         required := ["x", "y", "direction"] } },
   { name := "remote_macos_mouse_drag_n_drop",
     description := "Drag from one location to another (drag and drop operation)",
     inputSchema :=
       { type := "object",
         properties :=
           [("start_x", { type := "integer", description := "Starting X coordinate" }),
            ("start_y", { type := "integer", description := "Starting Y coordinate" }),
            ("end_x", { type := "integer", description := "Ending X coordinate" }),
            ("end_y", { type := "integer", description := "Ending Y coordinate" })]
           ++ sourceDimProps,
         required := ["start_x", "start_y", "end_x", "end_y"] } },
   { name := "remote_macos_send_keys",
     description := "Send keyboard input to the remote macOS system - can type text, special keys, or key combinations",
     inputSchema :=
       { type := "object",
         properties :=
           [("text",
             { type := "string",
               description := "Text to type (use this for regular text input)" }),
            ("special_key",
             { type := "string", description := "Special key to press",
               enum := some ["enter", "return", "backspace", "delete", "tab",
                 "space", "escape", "esc", "up", "down", "left", "right",
                 "home", "end", "page_up", "page_down", "f1", "f2", "f3",
                 "f4", "f5", "f6", "f7", "f8", "f9", "f10", "f11", "f12"] }),
            ("key_combination",
             { type := "string",
               description := "Key combination like cmd+c, cmd+v, cmd+shift+4, ctrl+alt+delete, etc.",
               examples := some ["cmd+c", "cmd+v", "cmd+a", "cmd+z",
                 "cmd+shift+4", "cmd+space", "cmd+tab", "ctrl+alt+delete"] })],
         required := [] } },
   { name := "remote_macos_open_application",
     description := "Open or activate an application on the remote macOS system",
     inputSchema :=
       { type := "object",
         properties :=
           [("application_name",
             { type := "string",
               description := "Name of the application to open (e.g., Safari, Chrome, Terminal, Finder, etc.)",
               examples := some ["Safari", "Google Chrome", "Terminal",
                 "Finder", "System Preferences", "TextEdit", "Calculator"] })],
         required := ["application_name"] } }]

/-- Connection-level state touched by `connect`. -/
structure MCPConnState where
  connected : Bool
  tools : List MCPTool
  deriving DecidableEq, Repr

/-- The fixed settling delay `setTimeout(resolve, 3000)` inside `connect`. -/
def connectSettleMs : Nat := 3000

/-- Models `MCPClient.connect` (lines 13-66): spawn the docker subprocess, install
the `error`/`exit`/`stdout`/`stderr` handlers, wait 3000 ms, run
`loadTools`, set `connected`.  Second component: the protocol requests
written to the subprocess stdin during `connect` — the body contains no
`stdin.write` at all, so the log is empty. -/
def connect (st : MCPConnState) : MCPConnState × List RequestMsg :=
  ({ st with tools := loadTools, connected := true }, [])

/-- C5 (refuting evidence): `connect` performs no handshake whatsoever — it
writes no `initialize`, no `initialized` notification and no `tools/list`
request to the subprocess — and the Tool Catalog it installs is the
hardcoded 8-tool list of `loadTools`, not anything obtained from a
`tools/list` result.  (The repository's own test
`mcpClient.test.ts: 'performs initialization handshake and loads tools from
the MCP server'` expects those three messages to be written and the catalog
to come from the server's single-tool reply.) -/
theorem c5_connect_sends_no_handshake :
    (connect ⟨false, []⟩).2 = [] ∧
    (connect ⟨false, []⟩).1.tools.map MCPTool.name =
      ["remote_macos_get_screen", "remote_macos_mouse_click",
       "remote_macos_mouse_double_click", "remote_macos_mouse_move",
       "remote_macos_mouse_scroll", "remote_macos_mouse_drag_n_drop",
       "remote_macos_send_keys", "remote_macos_open_application"] ∧
    (connect ⟨false, []⟩).1.tools.length = 8 :=
  ⟨rfl, rfl, rfl⟩

/-! ## `LocalMacOSClient` (`server.ts`, lines 155-448)

The in-process client shells out to `screencapture`, `system_profiler`,
`cliclick`, `osascript` and `open`.  Each `execAsync`/`readFileSync` call is
an oracle: `Except.ok` = the command succeeded (with its output),
`Except.error msg` = it threw an error whose `.message` is `msg`.  The
`stdout.match(/(\d+) x (\d+)/)` regex is the oracle `resolutionOf`. -/

/-- The `Record<string, any>` argument object, restricted to the keys the
local client reads (absent key = `undefined`). -/
structure LocalArgs where
  x : Option Int := none
  y : Option Int := none
  source_width : Option Int := none
  source_height : Option Int := none
  text : Option String := none
  special_key : Option String := none
  key_combo : Option String := none
  identifier : Option String := none
  deriving DecidableEq, Repr

/-- Outcomes of the shell commands the local client runs. -/
structure LocalEnv where
  screencaptureExec : Except String Unit
  screenshotFileB64 : Except String String
  profilerExec : Except String String
  resolutionOf : String → Option (Int × Int)
  cliclickExec : Except String Unit
  osascriptClickExec : Except String Unit
  osascriptKeysExec : Except String Unit
  openExec : Except String Unit

/-- Models `Math.round` (half away from zero is JS `Math.round` only for halves
rounding up; JS rounds half towards +∞, i.e. `floor(q + 1/2)`).  JS `number`
arithmetic is modelled exactly over `ℚ`. -/
def jsRound (q : ℚ) : Int := ⌊q + 1 / 2⌋

/-- Models `LocalMacOSClient.takeScreenshot` (lines 273-303): screencapture to a
temp file, read it as base64, query the screen resolution (fallback
1920×1080), and return a success result carrying BOTH `imageData` and a
`content` message; any inner failure is rethrown as
`'Failed to take screenshot: ...'`. -/
def takeScreenshot (env : LocalEnv) : Except String MCPToolResult :=
  let attempt : Except String MCPToolResult :=
    match env.screencaptureExec with
    | .error e => .error e
    | .ok _ =>
      match env.screenshotFileB64 with
      | .error e => .error e
      | .ok base64Data =>
        match env.profilerExec with
        | .error e => .error e
        | .ok stdout =>
          let wh := (env.resolutionOf stdout).getD (1920, 1080)
          .ok { success := true, imageData := some base64Data,
                content := some ("Screenshot taken successfully. Screen resolution: "
                  ++ toString wh.1 ++ "x" ++ toString wh.2) }
  match attempt with
  | .ok r => .ok r
  | .error e => .error ("Failed to take screenshot: " ++ e)

/-- Models `LocalMacOSClient.mouseClick` (lines 305-346): requires `x`/`y`, scales
them by the actual resolution, tries `cliclick`, falls back to AppleScript
with 1920×1080, else rethrows naming the first error. -/
def mouseClick (env : LocalEnv) (args : LocalArgs) :
    Except String MCPToolResult :=
  match args.x, args.y with
  | some x, some y =>
    let sw := args.source_width.getD 1366
    let sh := args.source_height.getD 768
    let attempt : Except String MCPToolResult :=
      match env.profilerExec with
      | .error e => .error e
      | .ok stdout =>
        let wh := (env.resolutionOf stdout).getD (1920, 1080)
        let scaledX := jsRound ((x : ℚ) / (sw : ℚ) * (wh.1 : ℚ))
        let scaledY := jsRound ((y : ℚ) / (sh : ℚ) * (wh.2 : ℚ))
        match env.cliclickExec with
        | .error e => .error e
        | .ok _ =>
          .ok { success := true,
                content := some ("Mouse clicked at (" ++ toString scaledX ++ ", "
                  ++ toString scaledY ++ ") - scaled from source (" ++ toString x
                  ++ ", " ++ toString y ++ ")") }
    match attempt with
    | .ok r => .ok r
    | .error e =>
      let scaledX := jsRound ((x : ℚ) / (sw : ℚ) * 1920)
      let scaledY := jsRound ((y : ℚ) / (sh : ℚ) * 1080)
      match env.osascriptClickExec with
      | .ok _ =>
        .ok { success := true,
              content := some ("Mouse clicked at (" ++ toString scaledX ++ ", "
                ++ toString scaledY ++ ") using AppleScript fallback") }
      | .error _ =>
        .error ("Failed to click mouse: " ++ e
          ++ ". Try installing cliclick with: brew install cliclick")
  | _, _ => .error "x and y coordinates are required"

/-- Models `LocalMacOSClient.sendKeys` (lines 348-399): branch on `text`,
`special_key`, `key_combo` (JS truthiness — empty strings fall through);
the AppleScript command string (escaping, `keyMap` translation) only feeds
the `osascript` oracle.  All failures are rethrown as
`'Failed to send keys: ...'`. -/
def sendKeys (env : LocalEnv) (args : LocalArgs) :
    Except String MCPToolResult :=
  let attempt : Except String MCPToolResult :=
    if jsTruthy args.text then
      match env.osascriptKeysExec with
      | .ok _ =>
        .ok { success := true,
              content := some ("Typed text: \"" ++ args.text.getD "" ++ "\"") }
      | .error e => .error e
    else if jsTruthy args.special_key then
      match env.osascriptKeysExec with
      | .ok _ =>
        .ok { success := true,
              content := some ("Pressed special key: "
                ++ args.special_key.getD "") }
      | .error e => .error e
    else if jsTruthy args.key_combo then
      match env.osascriptKeysExec with
      | .ok _ =>
        .ok { success := true,
              content := some ("Pressed key combination: "
                ++ args.key_combo.getD "") }
      | .error e => .error e
    else .error "Either text, special_key, or key_combo must be provided"
  match attempt with
  | .ok r => .ok r
  | .error e => .error ("Failed to send keys: " ++ e)

/-- Models `LocalMacOSClient.openApplication` (lines 401-419). -/
def openApplication (env : LocalEnv) (args : LocalArgs) :
    Except String MCPToolResult :=
  if ¬jsTruthy args.identifier then .error "Application identifier is required"
  else
    match env.openExec with
    | .ok _ =>
      .ok { success := true,
            content := some ("Successfully opened application: "
              ++ args.identifier.getD "") }
    | .error e =>
      .error ("Failed to open application \""
        ++ args.identifier.getD "" ++ "\": " ++ e)

/-- Models `LocalMacOSClient.callTool` (lines 242-271): the not-connected guard
throws to the caller (`Except.error`); everything thrown inside the `try`
is caught and becomes a failed Tool Result (`Except.ok` with
`success = false`). -/
def localCallTool (connected : Bool) (env : LocalEnv) (name : String)
    (args : LocalArgs) : Except String MCPToolResult :=
  if ¬connected then .error "Local macOS client not connected"
  else
    let inner : Except String MCPToolResult :=
      if name = "remote_macos_get_screen" then takeScreenshot env
      else if name = "remote_macos_mouse_click" then mouseClick env args
      else if name = "remote_macos_send_keys" then sendKeys env args
      else if name = "remote_macos_open_application" then openApplication env args
      else .error ("Unknown tool: " ++ name)
    match inner with
    | .ok r => .ok r
    | .error e =>
      .ok { success := false, error := some ("Error executing " ++ name ++ ": " ++ e) }

/-- The claimed Tool Result shape: exactly one of `content`/`imageData`/
`error` populated — one of the two former on success, `error` alone on
failure. -/
def exactlyOnePayload (r : MCPToolResult) : Bool :=
  if r.success then
    (r.content.isSome != r.imageData.isSome) && r.error.isNone
  else
    r.error.isSome && r.content.isNone && r.imageData.isNone

/-- A response whose first content element, when image-typed, carries a
`data` payload (otherwise `imageData: content.data` stores `undefined`). -/
def imageContentHasData (outcome : Except String Resp) : Bool :=
  match outcome with
  | .error _ => true
  | .ok resp =>
    match resp.result with
    | some res =>
      match res.content with
      | some (c :: _) => if c.type = "image" then c.data.isSome else true
      | _ => true
    | none => true

theorem takeScreenshot_ok_shape {env : LocalEnv} {r : MCPToolResult}
    (h : takeScreenshot env = Except.ok r) :
    r.success = true ∧ r.error = none ∧ r.content.isSome = true ∧
      r.imageData.isSome = true := by
  unfold takeScreenshot at h
  cases hsc : env.screencaptureExec with
  | error e => simp [hsc] at h
  | ok u =>
    cases hfb : env.screenshotFileB64 with
    | error e => simp [hsc, hfb] at h
    | ok b64 =>
      cases hpf : env.profilerExec with
      | error e => simp [hsc, hpf, hfb] at h
      | ok stdout =>
        simp only [hsc, hfb, hpf, Except.ok.injEq] at h
        subst h
        simp

theorem mouseClick_ok_shape {env : LocalEnv} {args : LocalArgs}
    {r : MCPToolResult} (h : mouseClick env args = Except.ok r) :
    r.success = true ∧ r.error = none ∧ r.content.isSome = true ∧
      r.imageData = none := by
  unfold mouseClick at h
  cases hx : args.x with
  | none => rw [hx] at h; cases args.y <;> simp at h
  | some x =>
    cases hy : args.y with
    | none => rw [hx, hy] at h; simp at h
    | some y =>
      rw [hx, hy] at h
      cases hpf : env.profilerExec with
      | error e =>
        rw [hpf] at h
        cases hos : env.osascriptClickExec with
        | error e' => simp [hos] at h
        | ok u =>
          simp only [hos, Except.ok.injEq] at h
          subst h; simp
      | ok stdout =>
        rw [hpf] at h
        cases hcc : env.cliclickExec with
        | error e =>
          rw [hcc] at h
          cases hos : env.osascriptClickExec with
          | error e' => simp [hos] at h
          | ok u =>
            simp only [hos, Except.ok.injEq] at h
            subst h; simp
        | ok u =>
          simp only [hcc, Except.ok.injEq] at h
          subst h; simp

theorem sendKeys_ok_shape {env : LocalEnv} {args : LocalArgs}
    {r : MCPToolResult} (h : sendKeys env args = Except.ok r) :
    r.success = true ∧ r.error = none ∧ r.content.isSome = true ∧
      r.imageData = none := by
  unfold sendKeys at h
  by_cases ht : jsTruthy args.text = true
  · rw [if_pos ht] at h
    cases hos : env.osascriptKeysExec with
    | error e => simp [hos] at h
    | ok u => simp only [hos, Except.ok.injEq] at h; subst h; simp
  · rw [if_neg ht] at h
    by_cases hk : jsTruthy args.special_key = true
    · rw [if_pos hk] at h
      cases hos : env.osascriptKeysExec with
      | error e => simp [hos] at h
      | ok u => simp only [hos, Except.ok.injEq] at h; subst h; simp
    · rw [if_neg hk] at h
      by_cases hc : jsTruthy args.key_combo = true
      · rw [if_pos hc] at h
        cases hos : env.osascriptKeysExec with
        | error e => simp [hos] at h
        | ok u => simp only [hos, Except.ok.injEq] at h; subst h; simp
      · rw [if_neg hc] at h
        simp at h

theorem openApplication_ok_shape {env : LocalEnv} {args : LocalArgs}
    {r : MCPToolResult} (h : openApplication env args = Except.ok r) :
    r.success = true ∧ r.error = none ∧ r.content.isSome = true ∧
      r.imageData = none := by
  unfold openApplication at h
  by_cases hid : jsTruthy args.identifier = true
  · rw [if_neg (by simp [hid])] at h
    cases hop : env.openExec with
    | error e => simp [hop] at h
    | ok u => simp only [hop, Except.ok.injEq] at h; subst h; simp
  · rw [if_pos (by simp [Bool.not_eq_true] at hid; simp [hid])] at h
    simp at h

/-- C6 (amended): every Tool Result of the subprocess-backed client carries
exactly one of `content`/`imageData`/`error`, EXCEPT that a success response
whose first content element is image-typed but carries no `data` payload
yields a result populating neither `content` nor `imageData` (and no
`error`); every Tool Result of the in-process local client likewise carries
exactly one, EXCEPT its successful screenshot, which populates BOTH
`content` and `imageData` (with no `error`). -/
theorem c6_payload_shape :
    (∀ (name : String) (outcome : Except String Resp),
      exactlyOnePayload (mcpCallToolOutcome name outcome) = true ∨
        ((mcpCallToolOutcome name outcome).success = true ∧
          (mcpCallToolOutcome name outcome).error = none ∧
          (mcpCallToolOutcome name outcome).content = none ∧
          (mcpCallToolOutcome name outcome).imageData = none ∧
          imageContentHasData outcome = false)) ∧
    (∀ (c : Bool) (env : LocalEnv) (name : String) (args : LocalArgs)
      (r : MCPToolResult),
      localCallTool c env name args = Except.ok r →
      (exactlyOnePayload r = true ∨
        (name = "remote_macos_get_screen" ∧ r.success = true ∧
          r.error = none ∧ r.content.isSome = true ∧
          r.imageData.isSome = true))) := by
  constructor
  · intro name outcome
    cases outcome with
    | error e => left; simp [mcpCallToolOutcome, exactlyOnePayload]
    | ok resp =>
      rcases resp with ⟨id, result, rerror⟩
      cases rerror with
      | some err => left; simp [mcpCallToolOutcome, exactlyOnePayload]
      | none =>
        cases result with
        | none => left; simp [mcpCallToolOutcome, exactlyOnePayload]
        | some res =>
          rcases res with ⟨content⟩
          cases content with
          | none => left; simp [mcpCallToolOutcome, exactlyOnePayload]
          | some items =>
            cases items with
            | nil => left; simp [mcpCallToolOutcome, exactlyOnePayload]
            | cons c rest =>
              by_cases htype : c.type = "image"
              · cases hd : c.data with
                | some d =>
                  left
                  simp [mcpCallToolOutcome, exactlyOnePayload, htype, hd]
                | none =>
                  right
                  simp [mcpCallToolOutcome, imageContentHasData, htype, hd]
              · left; simp [mcpCallToolOutcome, exactlyOnePayload, htype]
  · intro c env name args r h
    unfold localCallTool at h
    cases c with
    | false => simp at h
    | true =>
      rw [if_neg (by simp : ¬¬(true = true))] at h
      simp only [] at h
      by_cases h1 : name = "remote_macos_get_screen"
      · rw [if_pos h1] at h
        cases hts : takeScreenshot env with
        | ok r' =>
          rw [hts] at h
          simp only [Except.ok.injEq] at h
          subst h
          have := takeScreenshot_ok_shape hts
          exact Or.inr ⟨h1, this.1, this.2.1, this.2.2.1, this.2.2.2⟩
        | error e =>
          rw [hts] at h
          simp only [Except.ok.injEq] at h
          subst h
          simp [exactlyOnePayload]
      · rw [if_neg h1] at h
        by_cases h2 : name = "remote_macos_mouse_click"
        · rw [if_pos h2] at h
          cases hmc : mouseClick env args with
          | ok r' =>
            rw [hmc] at h
            simp only [Except.ok.injEq] at h
            subst h
            have := mouseClick_ok_shape hmc
            exact Or.inl (by simp [exactlyOnePayload, this.1, this.2.1,
              this.2.2.1, this.2.2.2])
          | error e =>
            rw [hmc] at h
            simp only [Except.ok.injEq] at h
            subst h
            simp [exactlyOnePayload]
        · rw [if_neg h2] at h
          by_cases h3 : name = "remote_macos_send_keys"
          · rw [if_pos h3] at h
            cases hsk : sendKeys env args with
            | ok r' =>
              rw [hsk] at h
              simp only [Except.ok.injEq] at h
              subst h
              have := sendKeys_ok_shape hsk
              exact Or.inl (by simp [exactlyOnePayload, this.1, this.2.1,
                this.2.2.1, this.2.2.2])
            | error e =>
              rw [hsk] at h
              simp only [Except.ok.injEq] at h
              subst h
              simp [exactlyOnePayload]
          · rw [if_neg h3] at h
            by_cases h4 : name = "remote_macos_open_application"
            · rw [if_pos h4] at h
              cases hoa : openApplication env args with
              | ok r' =>
                rw [hoa] at h
                simp only [Except.ok.injEq] at h
                subst h
                have := openApplication_ok_shape hoa
                exact Or.inl (by simp [exactlyOnePayload, this.1, this.2.1,
                  this.2.2.1, this.2.2.2])
              | error e =>
                rw [hoa] at h
                simp only [Except.ok.injEq] at h
                subst h
                simp [exactlyOnePayload]
            · rw [if_neg h4] at h
              simp only [Except.ok.injEq] at h
              subst h
              simp [exactlyOnePayload]

/-- A concrete oracle assignment under which every shell command of the
local client succeeds. -/
def happyLocalEnv : LocalEnv :=
  { screencaptureExec := .ok ()
    screenshotFileB64 := .ok "aW1n"
    profilerExec := .ok "          Resolution: 1920 x 1080"
    resolutionOf := fun _ => some (1920, 1080)
    cliclickExec := .ok ()
    osascriptClickExec := .ok ()
    osascriptKeysExec := .ok ()
    openExec := .ok () }

/-- Witness for `c6_payload_shape`: the local client's `openApplication`
yields a result with exactly one payload, obtained by applying the theorem
and discharging its `Except.ok` hypothesis. -/
theorem c6_payload_shape_witness :
    localCallTool true happyLocalEnv "remote_macos_open_application"
        { identifier := some "Safari" } =
      Except.ok
        { success := true,
          content := some "Successfully opened application: Safari" } ∧
    exactlyOnePayload
        { success := true,
          content := some "Successfully opened application: Safari" }
      = true := by
  refine ⟨rfl, ?_⟩
  have h := c6_payload_shape.2 true happyLocalEnv
    "remote_macos_open_application" { identifier := some "Safari" }
    { success := true,
      content := some "Successfully opened application: Safari" } rfl
  rcases h with h | h
  · exact h
  · exact absurd h.1 (by decide)

/-- A subprocess response whose single content element is image-typed but
has no `data` field. -/
def imageNoDataResp : Resp :=
  { id := 3, result := some { content := some [{ type := "image" }] },
    error := none }

/-- C6 counterexample: two Tool Results refute "exactly one of
content/imageData/error".  (a) The local client's successful screenshot
populates both `content` and `imageData`; (b) the subprocess client's
translation of a success response whose image-typed content element carries
no `data` payload populates neither `content` nor `imageData`. -/
theorem c6_counterexample_both_violations :
    (localCallTool true happyLocalEnv "remote_macos_get_screen" {} =
      Except.ok
        { success := true, imageData := some "aW1n",
          content := some
            "Screenshot taken successfully. Screen resolution: 1920x1080" } ∧
     exactlyOnePayload
        { success := true, imageData := some "aW1n",
          content := some
            "Screenshot taken successfully. Screen resolution: 1920x1080" }
       = false) ∧
    (mcpCallToolOutcome "remote_macos_get_screen"
        (Except.ok imageNoDataResp) =
      { success := true,
        data := some { content := some [{ type := "image" }] },
        toolName := some "remote_macos_get_screen" } ∧
     exactlyOnePayload
        { success := true,
          data := some { content := some [{ type := "image" }] },
          toolName := some "remote_macos_get_screen" } = false) :=
  ⟨⟨rfl, rfl⟩, ⟨rfl, rfl⟩⟩

/-! ## Conversation history (`LLMService.addToConversationContext`,
`llmService.ts` lines 264-278)

`conversations : Map<string, ConversationMessage[]>` is an association list;
`Map.get` returns the first binding, `Map.set` replaces it in place.
`context.push(message)` then
`context.splice(0, context.length - MAX_CONTEXT_MESSAGES)` when over the
bound. -/

/-- Models `ConversationMessage` (`role` is `'system' | 'user' | 'assistant'`). -/
structure ConversationMessage where
  role : String
  content : String
  timestamp : Nat
  deriving DecidableEq, Repr

/-- Models `MAX_CONTEXT_MESSAGES`. -/
def MAX_CONTEXT_MESSAGES : Nat := 20

/-- Models `conversations.get(sessionId)`. -/
def convGet : List (String × List ConversationMessage) → String →
    Option (List ConversationMessage)
  | [], _ => none
  | p :: ps, k => if p.1 = k then some p.2 else convGet ps k

/-- Models `conversations.set(sessionId, context)`. -/
def convSet : List (String × List ConversationMessage) → String →
    List ConversationMessage → List (String × List ConversationMessage)
  | [], k, v => [(k, v)]
  | p :: ps, k, v => if p.1 = k then (k, v) :: ps else p :: convSet ps k v

/-- The list-level core of `addToConversationContext`: append, then drop
from the head when over `MAX_CONTEXT_MESSAGES`. -/
def pushTruncate (context : List ConversationMessage)
    (message : ConversationMessage) : List ConversationMessage :=
  let context := context ++ [message]
  if MAX_CONTEXT_MESSAGES < context.length then
    context.drop (context.length - MAX_CONTEXT_MESSAGES)
  else context

/-- Models `LLMService.addToConversationContext(sessionId, message)`. -/
def addToConversationContext
    (conversations : List (String × List ConversationMessage))
    (sessionId : String) (message : ConversationMessage) :
    List (String × List ConversationMessage) :=
  convSet conversations sessionId
    (pushTruncate ((convGet conversations sessionId).getD []) message)

/-- A whole sequence of appends for one session. -/
def appendAllMessages (conversations : List (String × List ConversationMessage))
    (sessionId : String) (messages : List ConversationMessage) :
    List (String × List ConversationMessage) :=
  messages.foldl (fun acc m => addToConversationContext acc sessionId m)
    conversations

/-- The suffix of the `n` most recent elements. -/
def takeLast (l : List ConversationMessage) (n : Nat) :
    List ConversationMessage :=
  l.drop (l.length - n)

theorem convGet_convSet_self (m : List (String × List ConversationMessage))
    (k : String) (v : List ConversationMessage) :
    convGet (convSet m k v) k = some v := by
  induction m with
  | nil => simp [convGet, convSet]
  | cons p ps ih =>
    by_cases hp : p.1 = k
    · simp [convGet, convSet, hp]
    · simp [convGet, convSet, hp, ih]

theorem takeLast_append_takeLast (l y : List ConversationMessage) (n : Nat) :
    takeLast (takeLast l n ++ y) n = takeLast (l ++ y) n := by
  unfold takeLast
  rw [← List.drop_append_of_le_length (Nat.sub_le _ _), List.drop_drop]
  congr 1
  simp only [List.length_append, List.length_drop]
  omega

theorem pushTruncate_eq_takeLast (context : List ConversationMessage)
    (message : ConversationMessage) :
    pushTruncate context message =
      takeLast (context ++ [message]) MAX_CONTEXT_MESSAGES := by
  simp only [pushTruncate, takeLast]
  split
  · rfl
  · next h =>
    have h0 : (context ++ [message]).length - MAX_CONTEXT_MESSAGES = 0 := by
      omega
    rw [h0, List.drop_zero]

theorem appendAll_get_aux (messages : List ConversationMessage)
    (m : List (String × List ConversationMessage)) (sid : String)
    (ctx : List ConversationMessage) (hget : (convGet m sid).getD [] = ctx)
    (hlen : ctx.length ≤ MAX_CONTEXT_MESSAGES) :
    (convGet (appendAllMessages m sid messages) sid).getD [] =
      takeLast (ctx ++ messages) MAX_CONTEXT_MESSAGES := by
  induction messages generalizing m ctx with
  | nil =>
    simp only [appendAllMessages, List.foldl_nil, hget, List.append_nil]
    unfold takeLast
    have : ctx.length - MAX_CONTEXT_MESSAGES = 0 := by omega
    simp [this]
  | cons msg rest ih =>
    have hstep :
        (convGet (addToConversationContext m sid msg) sid).getD [] =
          takeLast (ctx ++ [msg]) MAX_CONTEXT_MESSAGES := by
      unfold addToConversationContext
      rw [convGet_convSet_self, hget]
      simp [pushTruncate_eq_takeLast]
    have hlen' :
        (takeLast (ctx ++ [msg]) MAX_CONTEXT_MESSAGES).length ≤
          MAX_CONTEXT_MESSAGES := by
      unfold takeLast
      simp only [List.length_drop]
      omega
    have := ih (addToConversationContext m sid msg)
      (takeLast (ctx ++ [msg]) MAX_CONTEXT_MESSAGES) hstep hlen'
    calc (convGet (appendAllMessages m sid (msg :: rest)) sid).getD []
      = (convGet (appendAllMessages (addToConversationContext m sid msg)
          sid rest) sid).getD [] := rfl
      _ = takeLast (takeLast (ctx ++ [msg]) MAX_CONTEXT_MESSAGES ++ rest)
            MAX_CONTEXT_MESSAGES := this
      _ = takeLast ((ctx ++ [msg]) ++ rest) MAX_CONTEXT_MESSAGES :=
            takeLast_append_takeLast _ _ _
      _ = takeLast (ctx ++ (msg :: rest)) MAX_CONTEXT_MESSAGES := by
            simp

/-- C9: after any sequence of appends to a session's history (starting from
no stored history), the stored sequence never exceeds
`MAX_CONTEXT_MESSAGES = 20`, and what is retained is exactly the suffix of
the most recently appended messages, in their original append order —
truncation only removes from the oldest end. -/
theorem c9_history_bounded_most_recent (sid : String)
    (messages : List ConversationMessage) :
    ((convGet (appendAllMessages [] sid messages) sid).getD []).length ≤
        MAX_CONTEXT_MESSAGES ∧
    (convGet (appendAllMessages [] sid messages) sid).getD [] =
      messages.drop (messages.length - MAX_CONTEXT_MESSAGES) := by
  have h := appendAll_get_aux messages [] sid [] rfl (by simp)
  simp only [List.nil_append] at h
  refine ⟨?_, h⟩
  rw [h]
  unfold takeLast
  simp only [List.length_drop]
  omega

/-! ## Orchestrator (`ChatService`, `chatService.ts`)

The collaborators are oracles in a `ChatEnv`:
  * `llmProcess` — `llmService.processMessage`, keyed by the prompt text
    (the decision call and the continuation call use different prompts);
  * `callTool` — `mcpClient.callTool`;
  * `followUp` — `llmService.generateFollowUpResponse` on the batch results;
  * `listTools` — `mcpClient.listTools`;
  * `now` — `Date.now()`.
`Except.error` models a thrown/rejected promise.  Each external call is
recorded in a `CallEvent` log so that which-calls-happen properties are
statable; the log is pure instrumentation mirroring the control flow. -/

/-- Models `MCPToolCall`: a tool invocation decided by the model; `α` carries the
opaque `arguments` object. -/
structure ToolCall (α : Type) where
  name : String
  arguments : α
  deriving DecidableEq, Repr

/-- Models `LLMResponse` from `llmService.ts` (`streaming` unused here). -/
structure LLMResp (α : Type) where
  content : String
  requiresTools : Bool
  toolCalls : Option (List (ToolCall α)) := none
  deriving DecidableEq, Repr

/-- The external collaborators of `ChatService`. -/
structure ChatEnv (α : Type) where
  listTools : Except String (List MCPTool)
  llmProcess : String → Except String (LLMResp α)
  callTool : String → α → Except String MCPToolResult
  followUp : List MCPToolResult → Except String (LLMResp α)
  now : Nat

/-- Models `ChatResponse.type` values. -/
inductive RespType where
  | text
  | image
  | error
  | tool_execution
  | typing
  deriving DecidableEq, Repr

/-- Models `ChatResponse` from `chatService.ts`. -/
structure ChatResponse where
  content : String
  type : RespType
  imageData : Option String := none
  toolName : Option String := none
  sessionId : Option String := none
  timestamp : Option Nat := none
  deriving DecidableEq, Repr

/-- Log of external calls made while handling one inbound message. -/
inductive CallEvent where
  /-- one `llmService.processMessage` call with the given prompt -/
  | llmDecision (prompt : String)
  /-- one `mcpClient.callTool` execution -/
  | toolExec (name : String)
  /-- one `llmService.generateFollowUpResponse` call -/
  | followUpCall
  /-- entry into `continueMultiStepWorkflow` -/
  | continuation
  deriving DecidableEq, Repr

/-- Tests whether `sub` occurs as a contiguous substring of the haystack
(JS `String.prototype.includes`; the empty string is found everywhere). -/
def containsSubstr (sub : List Char) : List Char → Bool
  | [] => sub.isEmpty
  | c :: t => sub.isPrefixOf (c :: t) || containsSubstr sub t

/-- JS `s.includes(sub)`. -/
def jsIncludes (s sub : String) : Bool := containsSubstr sub.data s.data

/-- JS `s.toLowerCase()` (ASCII; the indicator phrases are ASCII). -/
def jsToLower (s : String) : String := ⟨s.data.map Char.toLower⟩

/-- The fixed multi-step indicator list of `ChatService.isMultiStepRequest`. -/
def multiStepIndicators : List String :=
  ["then", "after", "next", "and then", "followed by", "subsequently",
   "navigate to", "open", "find", "explore", "multiple", "steps",
   "first", "second", "finally", ",", "and also"]

/-- Models `ChatService.isMultiStepRequest` (lines 501-510). -/
def isMultiStepRequest (message : String) : Bool :=
  multiStepIndicators.any (fun indicator =>
    jsIncludes (jsToLower message) indicator)

/-- One iteration of the tool loop in `executeTools` (lines 428-460): call
the tool, catching a thrown error into a failed Tool Result. -/
def runToolCall {α : Type} (env : ChatEnv α) (tc : ToolCall α) :
    MCPToolResult :=
  match env.callTool tc.name tc.arguments with
  | .ok result => result
  | .error e => { success := false, error := some e, toolName := some tc.name }

/-- The screenshot-success test of lines 440-443: the call was
`remote_macos_get_screen`, the result succeeded and its `imageData` is
truthy. -/
def screenshotOk {α : Type} (p : ToolCall α × MCPToolResult) : Bool :=
  p.1.name == "remote_macos_get_screen" && p.2.success && jsTruthy p.2.imageData

/-- The final value of the loop variable `screenshotData`: the `imageData`
of the last successful screenshot call (each match overwrites it). -/
def lastScreenshotData {α : Type} (pairs : List (ToolCall α × MCPToolResult)) :
    Option String :=
  ((pairs.filter screenshotOk).getLast?).bind (fun p => p.2.imageData)

/-- Models `ChatService.generateScreenshotMessage` (lines 626-635). -/
def generateScreenshotMessage (toolResults : List MCPToolResult) : String :=
  let successful := (toolResults.filter (fun r => r.success)).length
  let failed := (toolResults.filter (fun r => !r.success)).length
  if failed = 0 then "📸 Here\x27s a screenshot of your Mac desktop:"
  else "📸 Screenshot captured, but " ++ toString failed
    ++ " operation(s) had issues. Here\x27s what I can see:"

/-- The continuation prompt template of `continueMultiStepWorkflow`
(lines 520-528). -/
def continuationPromptFor (originalMessage : String) : String :=
  "I have successfully taken a screenshot and now need to continue with this multi-step request: \""
    ++ originalMessage ++ "\"\n\nCOMPLETED STEPS:\n- ✅ Screenshot captured\n\nREMAINING STEPS TO EXECUTE:\nFrom the original request, I still need to: open Finder, navigate to Applications, find an unused app, open it, and explore its menus.\n\nBased on the screenshot, execute the NEXT ACTION to continue this workflow. Use the available tools to perform the next step."

/-- The per-result line of the actions summary (lines 579-585);
`${r.toolName}` prints `undefined` for an absent field. -/
def actionLabel (r : MCPToolResult) : String :=
  if r.toolName = some "remote_macos_get_screen" then "📸 Screenshot captured"
  else if r.toolName = some "remote_macos_open_application" then
    "🚀 Opened " ++ jsOr r.content "application"
  else if r.toolName = some "remote_macos_mouse_click" then
    "🖱️ Clicked on interface"
  else if r.toolName = some "remote_macos_send_keys" then "⌨️ Typed text"
  else "✅ " ++ (match r.toolName with
    | some s => s
    | none => "undefined") ++ " executed"

/-- Models `ChatService.continueMultiStepWorkflow` (lines 512-624).  Never throws:
its `catch` falls back to an image response with the screenshot
(`screenshotData || undefined`). -/
def continueMultiStepWorkflow {α : Type} (env : ChatEnv α)
    (originalMessage : String) (previousResults : List MCPToolResult)
    (screenshotData : Option String) (sessionId : String) :
    List CallEvent × ChatResponse :=
  let fallback : ChatResponse :=
    { content := "📸 I took a screenshot as requested, but encountered an issue continuing with the remaining steps. Please let me know what you\x27d like me to do next!",
      type := RespType.image,
      imageData := if jsTruthy screenshotData then screenshotData else none,
      toolName := some "remote_macos_get_screen",
      sessionId := some sessionId, timestamp := some env.now }
  match env.listTools with
  | .error _ => ([], fallback)
  | .ok _ =>
    match env.llmProcess (continuationPromptFor originalMessage) with
    | .error _ =>
      ([CallEvent.llmDecision (continuationPromptFor originalMessage)], fallback)
    | .ok continuationResponse =>
      let ev0 := [CallEvent.llmDecision (continuationPromptFor originalMessage)]
      if continuationResponse.requiresTools
          && continuationResponse.toolCalls.isSome then
        let tcs := continuationResponse.toolCalls.getD []
        let nextToolResults := tcs.map (fun tc =>
          match env.callTool tc.name tc.arguments with
          | .ok result => { result with toolName := some tc.name }
          | .error e =>
            { success := false, error := some e, toolName := some tc.name })
        let allResults : List MCPToolResult := previousResults ++ nextToolResults
        let successfulActions := allResults.filter (fun r => r.success)
        let actionsSummary :=
          String.intercalate "\n" (successfulActions.map actionLabel)
        let responseContent :=
          "✅ **Multi-step workflow in progress!**\n\nI\x27ve successfully executed these actions:\n"
            ++ actionsSummary ++ "\n\n"
            ++ (if 1 < allResults.length then
                  "Let me continue with the next steps..."
                else "Ready for the next step in your workflow!")
        (ev0 ++ tcs.map (fun tc => CallEvent.toolExec tc.name),
         { content := responseContent, type := RespType.text,
           sessionId := some sessionId, timestamp := some env.now })
      else
        (ev0,
         { content := "✅ **Screenshot captured!** "
             ++ continuationResponse.content,
           type := RespType.text, sessionId := some sessionId,
           timestamp := some env.now })

/-- Models `ChatService.executeTools` (lines 422-499).  `Except.error` models an
exception escaping `executeTools` (from `listTools` or
`generateFollowUpResponse`) into `processMessage`'s `catch`. -/
def executeTools {α : Type} (env : ChatEnv α) (toolCalls : List (ToolCall α))
    (originalMessage sessionId : String) :
    List CallEvent × Except String ChatResponse :=
  let toolResults := toolCalls.map (runToolCall env)
  let events := toolCalls.map (fun tc => CallEvent.toolExec tc.name)
  let pairs := toolCalls.zip toolResults
  let hasScreenshot := pairs.any screenshotOk
  let screenshotData := lastScreenshotData pairs
  let wasMultiStepRequest := isMultiStepRequest originalMessage
  let onlyScreenshotExecuted := toolResults.length == 1 && hasScreenshot
  if wasMultiStepRequest && onlyScreenshotExecuted then
    let c := continueMultiStepWorkflow env originalMessage toolResults
      screenshotData sessionId
    (events ++ CallEvent.continuation :: c.1, Except.ok c.2)
  else if hasScreenshot && jsTruthy screenshotData && !wasMultiStepRequest then
    (events,
     Except.ok
       { content := generateScreenshotMessage toolResults,
         type := RespType.image, imageData := screenshotData,
         toolName := some "remote_macos_get_screen",
         sessionId := some sessionId, timestamp := some env.now })
  else
    match env.listTools with
    | .error e => (events, .error e)
    | .ok _ =>
      match env.followUp toolResults with
      | .error e => (events ++ [CallEvent.followUpCall], .error e)
      | .ok followUpResponse =>
        (events ++ [CallEvent.followUpCall],
         Except.ok
           { content := followUpResponse.content, type := RespType.text,
             sessionId := some sessionId, timestamp := some env.now })

/-- The `try` block of `ChatService.processMessage` (lines 383-409). -/
def processMessageBody {α : Type} (env : ChatEnv α)
    (message sessionId : String) : List CallEvent × Except String ChatResponse :=
  match env.listTools with
  | .error e => ([], .error e)
  | .ok _ =>
    match env.llmProcess message with
    | .error e => ([CallEvent.llmDecision message], .error e)
    | .ok llmResponse =>
      if llmResponse.requiresTools && llmResponse.toolCalls.isSome then
        let r := executeTools env (llmResponse.toolCalls.getD []) message
          sessionId
        (CallEvent.llmDecision message :: r.1, r.2)
      else
        ([CallEvent.llmDecision message],
         Except.ok
           { content := llmResponse.content, type := RespType.text,
             sessionId := some sessionId, timestamp := some env.now })

/-- The generic apology of the top-level `catch` (lines 411-419). -/
def apologyText : String :=
  "Sorry, I encountered an error processing your request. Please try again."

/-- Models `ChatService.processMessage`: the `try`/`catch` wrapper — total, one
response per inbound message. -/
def processMessage {α : Type} (env : ChatEnv α) (message sessionId : String) :
    List CallEvent × ChatResponse :=
  match processMessageBody env message sessionId with
  | (events, .ok r) => (events, r)
  | (events, .error _) =>
    (events,
     { content := apologyText, type := RespType.error,
       sessionId := some sessionId, timestamp := some env.now })

/-- Number of model-gateway decision calls in a log. -/
def countLlmCalls (log : List CallEvent) : Nat :=
  (log.filter fun e => match e with
    | CallEvent.llmDecision _ => true
    | _ => false).length

/-- Number of continuation entries in a log. -/
def countContinuations (log : List CallEvent) : Nat :=
  (log.filter fun e => match e with
    | CallEvent.continuation => true
    | _ => false).length

theorem mem_of_getLast?_eq {β : Type} {l : List β} {a : β}
    (h : l.getLast? = some a) : a ∈ l := by
  induction l with
  | nil => simp at h
  | cons x xs ih =>
    cases xs with
    | nil => simp_all
    | cons y ys =>
      rw [List.getLast?_cons_cons] at h
      exact List.mem_cons_of_mem _ (ih h)

theorem jsTruthy_lastScreenshotData {α : Type}
    {pairs : List (ToolCall α × MCPToolResult)}
    (h : pairs.any screenshotOk = true) :
    jsTruthy (lastScreenshotData pairs) = true := by
  obtain ⟨p, hp, hok⟩ := List.any_eq_true.mp h
  have hne : pairs.filter screenshotOk ≠ [] := by
    intro hnil
    have : p ∈ pairs.filter screenshotOk := List.mem_filter.mpr ⟨hp, hok⟩
    simp [hnil] at this
  cases hg : (pairs.filter screenshotOk).getLast? with
  | none => exact absurd (List.getLast?_eq_none_iff.mp hg) hne
  | some q =>
    have hq : q ∈ pairs.filter screenshotOk := mem_of_getLast?_eq hg
    have hqok : screenshotOk q = true := (List.mem_filter.mp hq).2
    have himg : jsTruthy q.2.imageData = true := by
      simp only [screenshotOk, Bool.and_eq_true] at hqok
      exact hqok.2
    unfold lastScreenshotData
    rw [hg]
    cases hid : q.2.imageData with
    | none => simp [hid, jsTruthy] at himg
    | some s => simpa [hid] using himg

theorem countLlm_append (a b : List CallEvent) :
    countLlmCalls (a ++ b) = countLlmCalls a + countLlmCalls b := by
  simp [countLlmCalls, List.filter_append]

theorem countCont_append (a b : List CallEvent) :
    countContinuations (a ++ b) =
      countContinuations a + countContinuations b := by
  simp [countContinuations, List.filter_append]

theorem countLlm_toolExec {α : Type} (tcs : List (ToolCall α)) :
    countLlmCalls (tcs.map fun tc => CallEvent.toolExec tc.name) = 0 := by
  induction tcs with
  | nil => rfl
  | cons t ts ih => simpa [countLlmCalls, List.filter] using ih

theorem countCont_toolExec {α : Type} (tcs : List (ToolCall α)) :
    countContinuations (tcs.map fun tc => CallEvent.toolExec tc.name) = 0 := by
  induction tcs with
  | nil => rfl
  | cons t ts ih => simpa [countContinuations, List.filter] using ih

theorem continuation_notin_toolExec {α : Type} (tcs : List (ToolCall α)) :
    CallEvent.continuation ∉ tcs.map fun tc => CallEvent.toolExec tc.name := by
  simp [List.mem_map]

theorem followUpCall_notin_toolExec {α : Type} (tcs : List (ToolCall α)) :
    CallEvent.followUpCall ∉ tcs.map fun tc => CallEvent.toolExec tc.name := by
  simp [List.mem_map]

theorem continuation_notin_continue {α : Type} (env : ChatEnv α)
    (m : String) (pr : List MCPToolResult) (sd : Option String) (s : String) :
    CallEvent.continuation ∉ (continueMultiStepWorkflow env m pr sd s).1 := by
  unfold continueMultiStepWorkflow
  cases env.listTools with
  | error e => simp
  | ok ts =>
    cases env.llmProcess (continuationPromptFor m) with
    | error e => simp
    | ok resp =>
      by_cases hb : (resp.requiresTools && resp.toolCalls.isSome) = true
      · simp only [hb, if_true, List.mem_append, List.mem_singleton]
        intro hmem
        rcases hmem with h | h
        · simp at h
        · exact continuation_notin_toolExec _ h
      · simp only [hb]
        simp

theorem countLlm_continue_le {α : Type} (env : ChatEnv α)
    (m : String) (pr : List MCPToolResult) (sd : Option String) (s : String) :
    countLlmCalls (continueMultiStepWorkflow env m pr sd s).1 ≤ 1 := by
  unfold continueMultiStepWorkflow
  cases env.listTools with
  | error e => simp [countLlmCalls]
  | ok ts =>
    cases env.llmProcess (continuationPromptFor m) with
    | error e => simp [countLlmCalls, List.filter]
    | ok resp =>
      by_cases hb : (resp.requiresTools && resp.toolCalls.isSome) = true
      · simp only [hb, if_true]
        rw [countLlm_append, countLlm_toolExec]
        simp [countLlmCalls, List.filter]
      · simp only [hb]
        simp [countLlmCalls, List.filter]

theorem countCont_continue {α : Type} (env : ChatEnv α)
    (m : String) (pr : List MCPToolResult) (sd : Option String) (s : String) :
    countContinuations (continueMultiStepWorkflow env m pr sd s).1 = 0 := by
  unfold continueMultiStepWorkflow
  cases env.listTools with
  | error e => simp [countContinuations]
  | ok ts =>
    cases env.llmProcess (continuationPromptFor m) with
    | error e => simp [countContinuations, List.filter]
    | ok resp =>
      by_cases hb : (resp.requiresTools && resp.toolCalls.isSome) = true
      · simp only [hb, if_true]
        rw [countCont_append, countCont_toolExec]
        simp [countContinuations, List.filter]
      · simp only [hb]
        simp [countContinuations, List.filter]

theorem continue_resp_shape {α : Type} (env : ChatEnv α)
    (m : String) (pr : List MCPToolResult) (sd : Option String) (s : String) :
    ((continueMultiStepWorkflow env m pr sd s).2.type = RespType.text ∨
      (continueMultiStepWorkflow env m pr sd s).2.type = RespType.image) ∧
    (continueMultiStepWorkflow env m pr sd s).2.sessionId = some s := by
  unfold continueMultiStepWorkflow
  cases env.listTools with
  | error e => simp
  | ok ts =>
    cases env.llmProcess (continuationPromptFor m) with
    | error e => simp
    | ok resp =>
      by_cases hb : (resp.requiresTools && resp.toolCalls.isSome) = true
      · simp [hb]
      · simp [hb]

theorem executeTools_continuation_iff {α : Type} (env : ChatEnv α)
    (tcs : List (ToolCall α)) (m s : String) :
    CallEvent.continuation ∈ (executeTools env tcs m s).1 ↔
      (isMultiStepRequest m = true ∧ (tcs.map (runToolCall env)).length = 1 ∧
        (tcs.zip (tcs.map (runToolCall env))).any screenshotOk = true) := by
  unfold executeTools
  simp only []
  by_cases hb : (isMultiStepRequest m &&
      ((tcs.map (runToolCall env)).length == 1 &&
        (tcs.zip (tcs.map (runToolCall env))).any screenshotOk)) = true
  · rw [if_pos hb]
    simp only [Bool.and_eq_true, beq_iff_eq] at hb
    constructor
    · intro _
      exact ⟨hb.1, hb.2.1, hb.2.2⟩
    · intro _
      simp
  · rw [if_neg hb]
    constructor
    · intro hmem
      exfalso
      revert hmem
      split
      · exact fun hmem => continuation_notin_toolExec _ hmem
      · cases env.listTools with
        | error e => exact fun hmem => continuation_notin_toolExec _ hmem
        | ok ts =>
          cases env.followUp (tcs.map (runToolCall env)) with
          | error e =>
            intro hmem
            rcases List.mem_append.mp hmem with h | h
            · exact continuation_notin_toolExec _ h
            · simp at h
          | ok fu =>
            intro hmem
            rcases List.mem_append.mp hmem with h | h
            · exact continuation_notin_toolExec _ h
            · simp at h
    · intro hc
      exact absurd (by simp [hc.1, hc.2.1, hc.2.2]) hb

theorem executeTools_image_branch {α : Type} (env : ChatEnv α)
    (tcs : List (ToolCall α)) (m s : String)
    (hnm : isMultiStepRequest m = false)
    (hshot : (tcs.zip (tcs.map (runToolCall env))).any screenshotOk = true) :
    executeTools env tcs m s =
      (tcs.map (fun tc => CallEvent.toolExec tc.name),
       Except.ok
         { content := generateScreenshotMessage (tcs.map (runToolCall env)),
           type := RespType.image,
           imageData := lastScreenshotData (tcs.zip (tcs.map (runToolCall env))),
           toolName := some "remote_macos_get_screen",
           sessionId := some s, timestamp := some env.now }) := by
  unfold executeTools
  simp only []
  rw [if_neg (by simp [hnm]),
    if_pos (by simp [hshot, jsTruthy_lastScreenshotData hshot, hnm])]

theorem executeTools_ok_shape {α : Type} (env : ChatEnv α)
    (tcs : List (ToolCall α)) (m s : String) (r : ChatResponse)
    (h : (executeTools env tcs m s).2 = Except.ok r) :
    (r.type = RespType.text ∨ r.type = RespType.image) ∧
      r.sessionId = some s := by
  unfold executeTools at h
  simp only [] at h
  split at h
  · simp only [Except.ok.injEq] at h
    subst h
    exact continue_resp_shape env m (tcs.map (runToolCall env)) _ s
  · split at h
    · simp only [Except.ok.injEq] at h
      subst h
      simp
    · revert h
      cases env.listTools with
      | error e => intro h; simp at h
      | ok ts =>
        cases env.followUp (tcs.map (runToolCall env)) with
        | error e => intro h; simp at h
        | ok fu =>
          intro h
          simp only [Except.ok.injEq] at h
          subst h
          simp

theorem countLlm_cons_continuation (l : List CallEvent) :
    countLlmCalls (CallEvent.continuation :: l) = countLlmCalls l := by
  simp [countLlmCalls, List.filter]

theorem countCont_cons_continuation (l : List CallEvent) :
    countContinuations (CallEvent.continuation :: l) =
      countContinuations l + 1 := by
  simp [countContinuations, List.filter]

theorem countLlm_cons_llm (p : String) (l : List CallEvent) :
    countLlmCalls (CallEvent.llmDecision p :: l) = countLlmCalls l + 1 := by
  simp [countLlmCalls, List.filter]

theorem countCont_cons_llm (p : String) (l : List CallEvent) :
    countContinuations (CallEvent.llmDecision p :: l) = countContinuations l := by
  simp [countContinuations, List.filter]

theorem countLlm_followUp : countLlmCalls [CallEvent.followUpCall] = 0 := rfl

theorem countCont_followUp : countContinuations [CallEvent.followUpCall] = 0 :=
  rfl

theorem executeTools_counts {α : Type} (env : ChatEnv α)
    (tcs : List (ToolCall α)) (m s : String) :
    countLlmCalls (executeTools env tcs m s).1 ≤ 1 ∧
      countContinuations (executeTools env tcs m s).1 ≤ 1 := by
  unfold executeTools
  simp only []
  split
  · have hl := countLlm_continue_le env m (tcs.map (runToolCall env))
      (lastScreenshotData (tcs.zip (tcs.map (runToolCall env)))) s
    have hc := countCont_continue env m (tcs.map (runToolCall env))
      (lastScreenshotData (tcs.zip (tcs.map (runToolCall env)))) s
    constructor
    · rw [countLlm_append, countLlm_toolExec, countLlm_cons_continuation]
      omega
    · rw [countCont_append, countCont_toolExec, countCont_cons_continuation]
      omega
  · split
    · constructor
      · rw [countLlm_toolExec]; omega
      · rw [countCont_toolExec]; omega
    · cases env.listTools with
      | error e =>
        constructor
        · rw [countLlm_toolExec]; omega
        · rw [countCont_toolExec]; omega
      | ok ts =>
        cases env.followUp (tcs.map (runToolCall env)) with
        | error e =>
          constructor
          · rw [countLlm_append, countLlm_toolExec, countLlm_followUp]; omega
          · rw [countCont_append, countCont_toolExec, countCont_followUp]; omega
        | ok fu =>
          constructor
          · rw [countLlm_append, countLlm_toolExec, countLlm_followUp]; omega
          · rw [countCont_append, countCont_toolExec, countCont_followUp]; omega

theorem processMessage_eta {α : Type} (env : ChatEnv α) (m s : String) :
    processMessage env m s =
      ((processMessageBody env m s).1,
       match (processMessageBody env m s).2 with
       | .ok r => r
       | .error _ =>
         { content := apologyText, type := RespType.error,
           sessionId := some s, timestamp := some env.now }) := by
  unfold processMessage
  rcases processMessageBody env m s with ⟨log, res⟩
  cases res <;> rfl

theorem processMessageBody_tools {α : Type} (env : ChatEnv α)
    (m s : String) (ts : List MCPTool) (resp : LLMResp α)
    (tcs : List (ToolCall α)) (hlt : env.listTools = Except.ok ts)
    (hllm : env.llmProcess m = Except.ok resp)
    (hreq : resp.requiresTools = true) (htc : resp.toolCalls = some tcs) :
    processMessageBody env m s =
      (CallEvent.llmDecision m :: (executeTools env tcs m s).1,
       (executeTools env tcs m s).2) := by
  unfold processMessageBody
  rw [hlt, hllm]
  simp [hreq, htc]

theorem processMessageBody_ok_shape {α : Type} (env : ChatEnv α)
    (m s : String) (r : ChatResponse)
    (h : (processMessageBody env m s).2 = Except.ok r) :
    (r.type = RespType.text ∨ r.type = RespType.image) ∧
      r.sessionId = some s := by
  unfold processMessageBody at h
  revert h
  cases env.listTools with
  | error e => intro h; simp at h
  | ok ts =>
    cases env.llmProcess m with
    | error e => intro h; simp at h
    | ok resp =>
      dsimp only
      by_cases hb : (resp.requiresTools && resp.toolCalls.isSome) = true
      · rw [if_pos hb]
        intro h
        exact executeTools_ok_shape env _ m s r h
      · rw [if_neg hb]
        intro h
        simp only [Except.ok.injEq] at h
        subst h
        simp

theorem processMessage_counts {α : Type} (env : ChatEnv α) (m s : String) :
    countLlmCalls (processMessage env m s).1 ≤ 2 ∧
      countContinuations (processMessage env m s).1 ≤ 1 := by
  rw [processMessage_eta]
  simp only []
  unfold processMessageBody
  cases env.listTools with
  | error e => simp [countLlmCalls, countContinuations]
  | ok ts =>
    cases env.llmProcess m with
    | error e => simp [countLlmCalls, countContinuations, List.filter]
    | ok resp =>
      dsimp only
      by_cases hb : (resp.requiresTools && resp.toolCalls.isSome) = true
      · rw [if_pos hb]
        have hc := executeTools_counts env (resp.toolCalls.getD []) m s
        constructor
        · rw [countLlm_cons_llm]
          omega
        · rw [countCont_cons_llm]
          omega
      · rw [if_neg hb]
        simp [countLlmCalls, countContinuations, List.filter]

/-- Whether the `try` body of `processMessage` threw. -/
def isThrown : Except String ChatResponse → Bool
  | .error _ => true
  | .ok _ => false

/-- The image-typed fallback response built by the `catch` of
`continueMultiStepWorkflow` (chatService lines 611-623):
`screenshotData || undefined` keeps only a truthy screenshot. -/
def continuationFallback (screenshotData : Option String)
    (sessionId : String) (now : Nat) : ChatResponse :=
  { content := "📸 I took a screenshot as requested, but encountered an issue continuing with the remaining steps. Please let me know what you\x27d like me to do next!",
    type := RespType.image,
    imageData := if jsTruthy screenshotData then screenshotData else none,
    toolName := some "remote_macos_get_screen",
    sessionId := some sessionId, timestamp := some now }

/-- Whether an exception is raised inside the `try` block of
`continueMultiStepWorkflow` before tool dispatch (its `listTools` or its
continuation model call throwing) — the exceptions its own `catch`
handles. -/
def continuationThrew {α : Type} (env : ChatEnv α) (m : String) : Bool :=
  match env.listTools with
  | .error _ => true
  | .ok _ =>
    match env.llmProcess (continuationPromptFor m) with
    | .error _ => true
    | .ok _ => false

/-- C10 (amended): `processMessage` is total — for any behaviour of the
collaborators it returns exactly one `ChatResponse`, tagged with the
session id.  An exception that escapes to `processMessage`'s top-level
`catch` yields the generic apology with `type = error`, and otherwise the
body's own response is returned and is never error-typed; but an exception
raised inside the continuation step is caught by
`continueMultiStepWorkflow`'s own `catch` and yields the image-typed
screenshot fallback, not the apology. -/
theorem c10_single_response_and_continuation_fallback {α : Type}
    (env : ChatEnv α) (m s : String) :
    (processMessage env m s).2.sessionId = some s ∧
    ((isThrown (processMessageBody env m s).2 = true ∧
        (processMessage env m s).2.content = apologyText ∧
        (processMessage env m s).2.type = RespType.error) ∨
      ((processMessageBody env m s).2 = Except.ok (processMessage env m s).2 ∧
        ¬(processMessage env m s).2.type = RespType.error)) ∧
    (∀ (env' : ChatEnv α) (m' : String) (pr : List MCPToolResult)
        (sd : Option String) (s' : String),
      continuationThrew env' m' = true →
      (continueMultiStepWorkflow env' m' pr sd s').2 =
        continuationFallback sd s' env'.now) := by
  refine ⟨?_, ?_, ?_⟩
  · rw [processMessage_eta]
    cases hres : (processMessageBody env m s).2 with
    | error e => dsimp only
    | ok r =>
      have hsh := processMessageBody_ok_shape env m s r hres
      dsimp only
      exact hsh.2
  · rw [processMessage_eta]
    cases hres : (processMessageBody env m s).2 with
    | error e =>
      dsimp only
      exact Or.inl ⟨rfl, rfl, rfl⟩
    | ok r =>
      have hsh := processMessageBody_ok_shape env m s r hres
      dsimp only
      refine Or.inr ⟨rfl, ?_⟩
      rcases hsh.1 with ht | ht <;> simp [ht]
  · intro env' m' pr sd s' hthrew
    unfold continuationThrew at hthrew
    unfold continueMultiStepWorkflow
    cases hlt : env'.listTools with
    | error e => rfl
    | ok ts =>
      rw [hlt] at hthrew
      cases hllm : env'.llmProcess (continuationPromptFor m') with
      | error e => rfl
      | ok resp => rw [hllm] at hthrew; simp at hthrew

/-- C8 (amended): in the tools path, the multi-step continuation branch is
entered iff the message contains an indicator phrase, exactly one tool was
executed, and that execution was a successful screenshot that produced
(truthy) image data; and for any message whatsoever at most two
model-gateway decision calls and at most one continuation happen — the
continuation never recurses. -/
theorem c8_continuation_iff_and_bounded {α : Type} (env : ChatEnv α)
    (m s : String) (ts : List MCPTool) (resp : LLMResp α)
    (tcs : List (ToolCall α))
    (hlt : env.listTools = Except.ok ts)
    (hllm : env.llmProcess m = Except.ok resp)
    (hreq : resp.requiresTools = true)
    (htc : resp.toolCalls = some tcs) :
    (CallEvent.continuation ∈ (processMessage env m s).1 ↔
      (isMultiStepRequest m = true ∧
        (tcs.map (runToolCall env)).length = 1 ∧
        (tcs.zip (tcs.map (runToolCall env))).any screenshotOk = true)) ∧
    (∀ (env' : ChatEnv α) (m' s' : String),
      countLlmCalls (processMessage env' m' s').1 ≤ 2 ∧
      countContinuations (processMessage env' m' s').1 ≤ 1) := by
  constructor
  · rw [processMessage_eta,
      processMessageBody_tools env m s ts resp tcs hlt hllm hreq htc]
    dsimp only
    have hstep : (CallEvent.continuation ∈
        CallEvent.llmDecision m :: (executeTools env tcs m s).1) ↔
        CallEvent.continuation ∈ (executeTools env tcs m s).1 := by simp
    exact hstep.trans (executeTools_continuation_iff env tcs m s)
  · intro env' m' s'
    exact processMessage_counts env' m' s'

/-- C7 (amended): when the inbound message is NOT a multi-step request and
the executed batch contains a successful screenshot with image data, the
orchestrator answers directly with an image-typed response carrying that
image data — no follow-up model-gateway call and no continuation happen. -/
theorem c7_screenshot_bypasses_followup {α : Type} (env : ChatEnv α)
    (m s : String) (ts : List MCPTool) (resp : LLMResp α)
    (tcs : List (ToolCall α))
    (hlt : env.listTools = Except.ok ts)
    (hllm : env.llmProcess m = Except.ok resp)
    (hreq : resp.requiresTools = true)
    (htc : resp.toolCalls = some tcs)
    (hnm : isMultiStepRequest m = false)
    (hshot : (tcs.zip (tcs.map (runToolCall env))).any screenshotOk = true) :
    (processMessage env m s).2 =
      { content := generateScreenshotMessage (tcs.map (runToolCall env)),
        type := RespType.image,
        imageData := lastScreenshotData (tcs.zip (tcs.map (runToolCall env))),
        toolName := some "remote_macos_get_screen",
        sessionId := some s, timestamp := some env.now } ∧
    jsTruthy (processMessage env m s).2.imageData = true ∧
    CallEvent.followUpCall ∉ (processMessage env m s).1 ∧
    CallEvent.continuation ∉ (processMessage env m s).1 := by
  have hbody := processMessageBody_tools env m s ts resp tcs hlt hllm hreq htc
  have himg := executeTools_image_branch env tcs m s hnm hshot
  rw [processMessage_eta, hbody, himg]
  dsimp only
  refine ⟨rfl, jsTruthy_lastScreenshotData hshot, ?_, ?_⟩
  · intro hmem
    rcases List.mem_cons.mp hmem with h | h
    · exact CallEvent.noConfusion h
    · exact followUpCall_notin_toolExec _ h
  · intro hmem
    rcases List.mem_cons.mp hmem with h | h
    · exact CallEvent.noConfusion h
    · exact continuation_notin_toolExec _ h

/-! ### Concrete scenarios for the orchestrator claims -/

/-- A chained instruction ("," and "then" are indicators). -/
def c8Msg : String := "take a screenshot, then tell me what you see"

/-- First model decision: exactly one tool call, the screenshot tool. -/
def c8Resp : LLMResp Unit :=
  { content := "", requiresTools := true,
    toolCalls := some [{ name := "remote_macos_get_screen", arguments := () }] }

/-- Collaborators for the C8 scenario: the screenshot call SUCCEEDS but the
subprocess returned a text payload, so the Tool Result has no image data. -/
def c8Env : ChatEnv Unit :=
  { listTools := .ok []
    llmProcess := fun p =>
      if p = c8Msg then .ok c8Resp
      else .ok { content := "analysis", requiresTools := false,
                 toolCalls := none }
    callTool := fun _ _ =>
      .ok { success := true, content := some "Tool executed successfully" }
    followUp := fun _ =>
      .ok { content := "follow-up summary", requiresTools := false,
            toolCalls := none }
    now := 0 }

/-- C8 counterexample: the message contains indicators, exactly one tool was
executed, it was the screenshot tool and it SUCCEEDED — all of the claim's
conditions — yet the continuation branch is not taken (the follow-up call
runs instead), because the code additionally requires truthy `imageData`. -/
theorem c8_counterexample_success_without_image :
    isMultiStepRequest c8Msg = true ∧
    c8Resp.toolCalls =
      some [{ name := "remote_macos_get_screen", arguments := () }] ∧
    (runToolCall c8Env
      { name := "remote_macos_get_screen", arguments := () }).success = true ∧
    CallEvent.continuation ∉ (processMessage c8Env c8Msg "s1").1 ∧
    CallEvent.followUpCall ∈ (processMessage c8Env c8Msg "s1").1 := by
  decide

/-- Witness for `c8_continuation_iff_and_bounded`. -/
theorem c8_continuation_iff_and_bounded_witness :
    (c8Env.listTools = Except.ok [] ∧
      c8Env.llmProcess c8Msg = Except.ok c8Resp ∧
      c8Resp.requiresTools = true ∧
      c8Resp.toolCalls =
        some [{ name := "remote_macos_get_screen", arguments := () }]) ∧
    countLlmCalls (processMessage c8Env c8Msg "s1").1 ≤ 2 :=
  ⟨⟨rfl, by simp [c8Env], rfl, rfl⟩,
    ((c8_continuation_iff_and_bounded c8Env c8Msg "s1" [] c8Resp
        [{ name := "remote_macos_get_screen", arguments := () }]
        rfl (by simp [c8Env]) rfl rfl).2 c8Env c8Msg "s1").1⟩

/-- A chained instruction whose first batch has TWO tool calls. -/
def c7Msg : String := "take a screenshot, then open Safari"

/-- The two tool calls of the C7 scenario batch. -/
def c7ToolCalls : List (ToolCall Unit) :=
  [{ name := "remote_macos_get_screen", arguments := () },
   { name := "remote_macos_open_application", arguments := () }]

/-- Collaborators for the C7 scenario: the screenshot succeeds WITH image
data; the second tool also succeeds. -/
def c7Env : ChatEnv Unit :=
  { listTools := .ok []
    llmProcess := fun p =>
      if p = c7Msg then
        .ok { content := "", requiresTools := true,
              toolCalls := some c7ToolCalls }
      else .ok { content := "analysis", requiresTools := false,
                 toolCalls := none }
    callTool := fun nm _ =>
      if nm = "remote_macos_get_screen" then
        .ok { success := true, imageData := some "aW1n" }
      else .ok { success := true, content := some "Safari" }
    followUp := fun _ =>
      .ok { content := "follow-up summary", requiresTools := false,
            toolCalls := none }
    now := 0 }

/-- C7 counterexample: the continuation branch is not taken (two tools ran)
and a screenshot succeeded with image data, yet the orchestrator still
invokes the follow-up model-gateway call and emits a text — not image —
response, because the direct-image path also requires the message not to be
a multi-step request. -/
theorem c7_counterexample_followup_despite_screenshot :
    isMultiStepRequest c7Msg = true ∧
    screenshotOk ({ name := "remote_macos_get_screen", arguments := () },
      runToolCall c7Env
        { name := "remote_macos_get_screen", arguments := () }) = true ∧
    CallEvent.continuation ∉ (processMessage c7Env c7Msg "s1").1 ∧
    CallEvent.followUpCall ∈ (processMessage c7Env c7Msg "s1").1 ∧
    (processMessage c7Env c7Msg "s1").2.type = RespType.text := by
  decide

/-- A plain screenshot request with no multi-step indicator. -/
def c7wMsg : String := "screenshot please"

/-- Single screenshot tool call of the witness scenario. -/
def c7wCalls : List (ToolCall Unit) :=
  [{ name := "remote_macos_get_screen", arguments := () }]

/-- Model decision for the witness scenario. -/
def c7wResp : LLMResp Unit :=
  { content := "", requiresTools := true, toolCalls := some c7wCalls }

/-- Collaborators for the C7 witness scenario. -/
def c7wEnv : ChatEnv Unit :=
  { listTools := .ok []
    llmProcess := fun p =>
      if p = c7wMsg then .ok c7wResp
      else .ok { content := "", requiresTools := false, toolCalls := none }
    callTool := fun _ _ => .ok { success := true, imageData := some "aW1n" }
    followUp := fun _ =>
      .ok { content := "", requiresTools := false, toolCalls := none }
    now := 0 }

/-- Witness for `c7_screenshot_bypasses_followup`. -/
theorem c7_screenshot_bypasses_followup_witness :
    (c7wEnv.listTools = Except.ok [] ∧
      c7wEnv.llmProcess c7wMsg = Except.ok c7wResp ∧
      c7wResp.requiresTools = true ∧
      c7wResp.toolCalls = some c7wCalls ∧
      isMultiStepRequest c7wMsg = false ∧
      (c7wCalls.zip (c7wCalls.map (runToolCall c7wEnv))).any screenshotOk
        = true) ∧
    (processMessage c7wEnv c7wMsg "s2").2.type = RespType.image := by
  have h := c7_screenshot_bypasses_followup c7wEnv c7wMsg "s2" [] c7wResp
    c7wCalls rfl (by simp [c7wEnv]) rfl rfl (by decide) (by decide)
  exact ⟨⟨rfl, by simp [c7wEnv], rfl, rfl, by decide, by decide⟩,
    by rw [h.1]⟩

/-- A chained instruction whose continuation will be attempted. -/
def c10cMsg : String := "take a screenshot, then open Finder"

/-- Collaborators for the C10 counterexample: the first model decision asks
for one screenshot (which succeeds with image data), and the continuation
model call THROWS. -/
def c10cEnv : ChatEnv Unit :=
  { listTools := .ok []
    llmProcess := fun p =>
      if p = c10cMsg then
        .ok { content := "", requiresTools := true,
              toolCalls :=
                some [{ name := "remote_macos_get_screen", arguments := () }] }
      else .error "LLM processing failed"
    callTool := fun _ _ => .ok { success := true, imageData := some "aW1n" }
    followUp := fun _ =>
      .ok { content := "", requiresTools := false, toolCalls := none }
    now := 0 }

/-- C10 counterexample: an exception IS raised at a step (the continuation
model call throws), yet `processMessage` does not return the error-typed
apology — `continueMultiStepWorkflow`'s own `catch` returns the image-typed
screenshot fallback instead. -/
theorem c10_counterexample_continuation_exception :
    c10cEnv.llmProcess (continuationPromptFor c10cMsg) =
      Except.error "LLM processing failed" ∧
    (processMessage c10cEnv c10cMsg "s1").2.type = RespType.image ∧
    ¬(processMessage c10cEnv c10cMsg "s1").2.type = RespType.error ∧
    ¬(processMessage c10cEnv c10cMsg "s1").2.content = apologyText :=
  ⟨rfl, by decide, by decide, by decide⟩

/-- Witness for `c10_single_response_and_continuation_fallback`: the
continuation-throwing scenario, with the fallback hypothesis discharged. -/
theorem c10_single_response_and_continuation_fallback_witness :
    continuationThrew c10cEnv c10cMsg = true ∧
    (continueMultiStepWorkflow c10cEnv c10cMsg [] (some "aW1n") "s4").2 =
      continuationFallback (some "aW1n") "s4" c10cEnv.now ∧
    (processMessage c10cEnv c10cMsg "s1").2.sessionId = some "s1" :=
  ⟨by decide,
    (c10_single_response_and_continuation_fallback c10cEnv c10cMsg "s1").2.2
      c10cEnv c10cMsg [] (some "aW1n") "s4" (by decide),
    (c10_single_response_and_continuation_fallback c10cEnv c10cMsg "s1").1⟩

end MCPMacOS
